import Mathlib

/-!
Verification of the UPS workitem lifecycle core of the orthanc routing
example: the workitem entity and its DICOM-JSON codec
(orthanc-viewer/ups/workitem.py), the workitem processor
(orthanc-router/ups/processor.py), the workitem store
(orthanc-router/ups/storage.py), the subscription registry
(orthanc-router/ups/subscription_storage.py) and the REST create handler
(orthanc-router/ups/routes.py).

The Python code manipulates nested dicts/lists/strings/bools and moves them
through `json.dumps` / `json.loads`.  `Json` below is that value universe
(the workitem wire format and both storage buckets only ever hold strings,
booleans, arrays and objects; JSON numbers and null are never produced by
this code, progress percentages are stored as decimal strings).  `dumps`
mirrors `json.dumps` with its default separators (a comma plus space
between items, a colon plus space after keys) and its escaping of the
quote, backslash and common control characters; the `ensure_ascii`
`\uXXXX` escaping of other code points is value-preserving and is elided
here, so `dumps` emits those code points directly and `loads` reads them
back, which decodes to the same value as CPython does.  `loads` is a
parser for exactly the canonical form `dumps` produces — the only strings
this repository ever decodes are strings it previously encoded.
-/

/-- A JSON value as produced and consumed by the workitem/storage code:
strings, booleans, arrays and objects (Python dicts in insertion order). -/
inductive Json where
  | str (s : String)
  | bool (b : Bool)
  | arr (items : List Json)
  | obj (fields : List (String × Json))

/-- Lookup in a Python dict modelled as an ordered association list
(`d[k]` / `d.get(k)`); keys are unique in every dict this code builds. -/
def getKey : List (String × Json) → String → Option Json
  | [], _ => none
  | kv :: rest, k => if kv.1 = k then some kv.2 else getKey rest k

/-- Assignment `d[k] = v` on a Python dict: an existing key keeps its
position and gets the new value, a new key is appended at the end. -/
def setKey : List (String × Json) → String → Json → List (String × Json)
  | [], k, v => [(k, v)]
  | kv :: rest, k, v => if kv.1 = k then (k, v) :: rest else kv :: setKey rest k v

theorem getKey_setKey_same (d : List (String × Json)) (k : String) (v : Json) :
    getKey (setKey d k v) k = some v := by
  induction d with
  | nil => simp [setKey, getKey]
  | cons kv rest ih =>
      by_cases h : kv.1 = k
      · simp [setKey, getKey, h]
      · simp [setKey, getKey, h, ih]

theorem getKey_setKey_other (d : List (String × Json)) (k k' : String) (v : Json)
    (hne : k ≠ k') : getKey (setKey d k v) k' = getKey d k' := by
  induction d with
  | nil => simp [setKey, getKey, hne]
  | cons kv rest ih =>
      by_cases h : kv.1 = k
      · simp [setKey, getKey, h, hne]
      · simp only [setKey, if_neg h, getKey]
        by_cases h' : kv.1 = k'
        · simp [h']
        · simp [h', ih]

/-- JSON escaping of one character, as `json.dumps` performs it (quote,
backslash, and the named control escapes; see the header note on the
elided `\uXXXX` form for the remaining code points). -/
def escapeChar (c : Char) : List Char :=
  if c = '"' then ['\\', '"']
  else if c = '\\' then ['\\', '\\']
  else if c = '\n' then ['\\', 'n']
  else if c = '\r' then ['\\', 'r']
  else if c = '\t' then ['\\', 't']
  else if c = Char.ofNat 8 then ['\\', 'b']
  else if c = Char.ofNat 12 then ['\\', 'f']
  else [c]

/-- Escape a whole character sequence. -/
def escapeList : List Char → List Char
  | [] => []
  | c :: cs => escapeChar c ++ escapeList cs

/-- A JSON string literal: quote, escaped contents, quote. -/
def dumpString (s : List Char) : List Char :=
  '"' :: (escapeList s ++ ['"'])

mutual

/-- `json.dumps` with CPython's default separators. -/
def dumps : Json → List Char
  | .str s => dumpString s.data
  | .bool true => ['t', 'r', 'u', 'e']
  | .bool false => ['f', 'a', 'l', 's', 'e']
  | .arr items => '[' :: (dumpItems items ++ [']'])
  | .obj fields => '{' :: (dumpMembers fields ++ ['}'])

/-- The item list of an array, `", "`-separated. -/
def dumpItems : List Json → List Char
  | [] => []
  | x :: xs => dumps x ++ itemsSep xs

/-- The `", "`-prefixed continuation of an array's item list. -/
def itemsSep : List Json → List Char
  | [] => []
  | x :: xs => ',' :: ' ' :: (dumps x ++ itemsSep xs)

/-- The member list of an object: `"key": value` pairs, `", "`-separated. -/
def dumpMembers : List (String × Json) → List Char
  | [] => []
  | kv :: kvs => dumpString kv.1.data ++ ':' :: ' ' :: (dumps kv.2 ++ membersSep kvs)

/-- The `", "`-prefixed continuation of an object's member list. -/
def membersSep : List (String × Json) → List Char
  | [] => []
  | kv :: kvs =>
      ',' :: ' ' :: (dumpString kv.1.data ++ ':' :: ' ' :: (dumps kv.2 ++ membersSep kvs))

end

/-- Inverse of `escapeChar` on the character after a backslash. -/
def unescapeChar (c : Char) : Option Char :=
  if c = '"' then some '"'
  else if c = '\\' then some '\\'
  else if c = 'n' then some '\n'
  else if c = 'r' then some '\r'
  else if c = 't' then some '\t'
  else if c = 'b' then some (Char.ofNat 8)
  else if c = 'f' then some (Char.ofNat 12)
  else none

/-- Parse the body of a string literal (after the opening quote) up to the
closing quote, undoing escapes; returns the contents and the remainder. -/
def parseStringBody : List Char → Option (List Char × List Char)
  | [] => none
  | '\\' :: e :: rest =>
      match unescapeChar e with
      | some c => (parseStringBody rest).map (fun p => (c :: p.1, p.2))
      | none => none
  | '"' :: rest => some ([], rest)
  | c :: rest => (parseStringBody rest).map (fun p => (c :: p.1, p.2))

mutual

/-- Parse one JSON value in the canonical `dumps` format.  `fuel` only
bounds nesting for totality; `loads` supplies enough for any input. -/
def parseVal : Nat → List Char → Option (Json × List Char)
  | 0, _ => none
  | _ + 1, 't' :: 'r' :: 'u' :: 'e' :: rest => some (.bool true, rest)
  | _ + 1, 'f' :: 'a' :: 'l' :: 's' :: 'e' :: rest => some (.bool false, rest)
  | _ + 1, '"' :: rest =>
      (parseStringBody rest).map (fun p => (.str (String.mk p.1), p.2))
  | fuel + 1, '[' :: rest =>
      match rest with
      | [] => none
      | c :: rest' =>
          if c = ']' then some (.arr [], rest')
          else (parseItems fuel (c :: rest')).map (fun p => (.arr p.1, p.2))
  | fuel + 1, '{' :: rest =>
      match rest with
      | [] => none
      | c :: rest' =>
          if c = '}' then some (.obj [], rest')
          else (parseMembers fuel (c :: rest')).map (fun p => (.obj p.1, p.2))
  | _ + 1, _ => none

/-- Parse the nonempty item list of an array up to the closing bracket. -/
def parseItems : Nat → List Char → Option (List Json × List Char)
  | 0, _ => none
  | fuel + 1, cs =>
      match parseVal fuel cs with
      | none => none
      | some (v, rest) =>
          match rest with
          | ']' :: rest' => some ([v], rest')
          | ',' :: ' ' :: rest' =>
              (parseItems fuel rest').map (fun p => (v :: p.1, p.2))
          | _ => none

/-- Parse the nonempty member list of an object up to the closing brace. -/
def parseMembers : Nat → List Char → Option (List (String × Json) × List Char)
  | 0, _ => none
  | fuel + 1, cs =>
      match cs with
      | '"' :: rest =>
          (match parseStringBody rest with
           | none => none
           | some (k, rest1) =>
               match rest1 with
               | ':' :: ' ' :: rest2 =>
                   (match parseVal fuel rest2 with
                    | none => none
                    | some (v, rest3) =>
                        match rest3 with
                        | '}' :: rest4 => some ([(String.mk k, v)], rest4)
                        | ',' :: ' ' :: rest4 =>
                            (parseMembers fuel rest4).map
                              (fun p => ((String.mk k, v) :: p.1, p.2))
                        | _ => none)
               | _ => none)
      | _ => none

end

mutual

/-- Node count of a value, the fuel budget the parser needs for it. -/
def sizeJ : Json → Nat
  | .str _ => 1
  | .bool _ => 1
  | .arr items => 1 + sizeL items
  | .obj fields => 1 + sizeM fields

/-- Node count of an array's items. -/
def sizeL : List Json → Nat
  | [] => 0
  | x :: xs => 1 + sizeJ x + sizeL xs

/-- Node count of an object's member values. -/
def sizeM : List (String × Json) → Nat
  | [] => 0
  | kv :: kvs => 1 + sizeJ kv.2 + sizeM kvs

end

/-- `json.loads`, for the canonical format: parse the whole input, fail on
trailing characters (as CPython does). -/
def loads (cs : List Char) : Option Json :=
  match parseVal (cs.length + 1) cs with
  | some (j, []) => some j
  | _ => none

theorem parseStringBody_escapeChar (c : Char) (rest : List Char) :
    parseStringBody (escapeChar c ++ rest)
      = (parseStringBody rest).map (fun p => (c :: p.1, p.2)) := by
  by_cases h1 : c = '"'
  · subst h1; simp [escapeChar, parseStringBody, unescapeChar]
  by_cases h2 : c = '\\'
  · subst h2; simp [escapeChar, h1, parseStringBody, unescapeChar]
  by_cases h3 : c = '\n'
  · subst h3; simp [escapeChar, h1, h2, parseStringBody, unescapeChar]
  by_cases h4 : c = '\r'
  · subst h4; simp [escapeChar, h1, h2, h3, parseStringBody, unescapeChar]
  by_cases h5 : c = '\t'
  · subst h5; simp [escapeChar, h1, h2, h3, h4, parseStringBody, unescapeChar]
  by_cases h6 : c = Char.ofNat 8
  · subst h6; simp [escapeChar, h1, h2, h3, h4, h5, parseStringBody, unescapeChar]
  by_cases h7 : c = Char.ofNat 12
  · subst h7; simp [escapeChar, h1, h2, h3, h4, h5, h6, parseStringBody, unescapeChar]
  · simp [escapeChar, h1, h2, h3, h4, h5, h6, h7, parseStringBody]

theorem parseStringBody_escapeList (s rest : List Char) :
    parseStringBody (escapeList s ++ '"' :: rest) = some (s, rest) := by
  induction s with
  | nil => simp [escapeList, parseStringBody]
  | cons c cs ih =>
      simp [escapeList, List.append_assoc, parseStringBody_escapeChar, ih]

theorem parseStringBody_dumpString (s : List Char) (rest : List Char) :
    parseStringBody (escapeList s ++ ('"' :: rest)) = some (s, rest) :=
  parseStringBody_escapeList s rest

/-- Every serialized value starts with a character that closes neither an
array nor an object, so the parser's bracket branches discriminate. -/
theorem dumps_head (j : Json) : ∃ c t, dumps j = c :: t ∧ c ≠ ']' ∧ c ≠ '}' := by
  cases j with
  | str s =>
      exact ⟨'"', escapeList s.data ++ ['"'], rfl, by decide, by decide⟩
  | bool b =>
      cases b with
      | true => exact ⟨'t', ['r', 'u', 'e'], rfl, by decide, by decide⟩
      | false => exact ⟨'f', ['a', 'l', 's', 'e'], rfl, by decide, by decide⟩
  | arr items =>
      exact ⟨'[', dumpItems items ++ [']'], rfl, by decide, by decide⟩
  | obj fields =>
      exact ⟨'{', dumpMembers fields ++ ['}'], rfl, by decide, by decide⟩

theorem String_mk_data (s : String) : String.mk s.data = s := by
  cases s; rfl

theorem sizeJ_pos (j : Json) : 1 ≤ sizeJ j := by
  cases j <;> simp [sizeJ]

mutual

theorem parseVal_dumps : ∀ (j : Json) (fuel : Nat) (rest : List Char),
    sizeJ j ≤ fuel → parseVal fuel (dumps j ++ rest) = some (j, rest)
  | .str s, fuel, rest, h => by
      cases fuel with
      | zero => simp [sizeJ] at h
      | succ f =>
          have harg : dumps (.str s) ++ rest
              = '"' :: (escapeList s.data ++ ('"' :: rest)) := by
            simp [dumps, dumpString]
          rw [harg]
          simp [parseVal, parseStringBody_escapeList, String_mk_data]
  | .bool b, fuel, rest, h => by
      cases fuel with
      | zero => simp [sizeJ] at h
      | succ f => cases b <;> simp [dumps, parseVal]
  | .arr [], fuel, rest, h => by
      cases fuel with
      | zero => simp [sizeJ] at h
      | succ f =>
          have harg : dumps (.arr []) ++ rest = '[' :: (']' :: rest) := by
            simp [dumps, dumpItems]
          rw [harg]
          simp [parseVal]
  | .arr (x :: xs), fuel, rest, h => by
      cases fuel with
      | zero => simp [sizeJ] at h
      | succ f =>
          obtain ⟨c, t, hct, hc, _⟩ := dumps_head x
          have hsplit : dumpItems (x :: xs) ++ (']' :: rest)
              = c :: (t ++ (itemsSep xs ++ (']' :: rest))) := by
            simp [dumpItems, hct]
          have harg : dumps (.arr (x :: xs)) ++ rest
              = '[' :: (c :: (t ++ (itemsSep xs ++ (']' :: rest)))) := by
            simp [dumps, ← hsplit]
          rw [harg]
          simp only [parseVal, if_neg hc]
          rw [← hsplit, parseItems_dumps x xs f rest (by
            simp only [sizeJ] at h; omega)]
          rfl
  | .obj [], fuel, rest, h => by
      cases fuel with
      | zero => simp [sizeJ] at h
      | succ f =>
          have harg : dumps (.obj []) ++ rest = '{' :: ('}' :: rest) := by
            simp [dumps, dumpMembers]
          rw [harg]
          simp [parseVal]
  | .obj (kv :: kvs), fuel, rest, h => by
      cases fuel with
      | zero => simp [sizeJ] at h
      | succ f =>
          have hsplit : dumpMembers (kv :: kvs) ++ ('}' :: rest)
              = '"' :: (escapeList kv.1.data
                  ++ ('"' :: (':' :: ' ' :: (dumps kv.2
                      ++ (membersSep kvs ++ ('}' :: rest)))))) := by
            simp [dumpMembers, dumpString]
          have harg : dumps (.obj (kv :: kvs)) ++ rest
              = '{' :: ('"' :: (escapeList kv.1.data
                  ++ ('"' :: (':' :: ' ' :: (dumps kv.2
                      ++ (membersSep kvs ++ ('}' :: rest))))))) := by
            simp [dumps, ← hsplit]
          rw [harg]
          simp only [parseVal, if_neg (by decide : ¬('"' = '}'))]
          rw [← hsplit, parseMembers_dumps kv kvs f rest (by
            simp only [sizeJ] at h; omega)]
          rfl
termination_by j _ _ _ => sizeJ j
decreasing_by
  all_goals simp only [sizeJ, sizeL, sizeM]
  all_goals omega

theorem parseItems_dumps : ∀ (x : Json) (xs : List Json) (fuel : Nat) (rest : List Char),
    sizeL (x :: xs) ≤ fuel →
    parseItems fuel (dumpItems (x :: xs) ++ (']' :: rest)) = some (x :: xs, rest)
  | x, [], fuel, h1, h => by
      cases fuel with
      | zero =>
          have := sizeJ_pos x
          simp only [sizeL] at h
          omega
      | succ f =>
          have hx : sizeJ x ≤ f := by
            simp only [sizeL] at h
            omega
          have harg : dumpItems [x] ++ (']' :: h1)
              = dumps x ++ (itemsSep [] ++ (']' :: h1)) := by
            simp [dumpItems]
          rw [harg]
          simp only [parseItems, parseVal_dumps x f _ hx]
          simp [itemsSep]
  | x, y :: ys, fuel, rest, h => by
      cases fuel with
      | zero =>
          have := sizeJ_pos x
          simp only [sizeL] at h
          omega
      | succ f =>
          have hx : sizeJ x ≤ f := by
            simp only [sizeL] at h
            omega
          have harg : dumpItems (x :: y :: ys) ++ (']' :: rest)
              = dumps x ++ (itemsSep (y :: ys) ++ (']' :: rest)) := by
            simp [dumpItems]
          rw [harg]
          simp only [parseItems, parseVal_dumps x f _ hx]
          have hrec : parseItems f (dumpItems (y :: ys) ++ (']' :: rest))
              = some (y :: ys, rest) :=
            parseItems_dumps y ys f rest (by
              have := sizeJ_pos x
              simp only [sizeL] at h ⊢
              omega)
          have hsep : itemsSep (y :: ys) ++ (']' :: rest)
              = ',' :: ' ' :: (dumpItems (y :: ys) ++ (']' :: rest)) := by
            simp [itemsSep, dumpItems]
          simp only [hsep]
          simp [hrec]
termination_by x xs _ _ _ => sizeL (x :: xs)
decreasing_by
  all_goals simp only [sizeJ, sizeL, sizeM]
  all_goals try have := sizeJ_pos x
  all_goals omega

theorem parseMembers_dumps :
    ∀ (kv : String × Json) (kvs : List (String × Json)) (fuel : Nat) (rest : List Char),
    sizeM (kv :: kvs) ≤ fuel →
    parseMembers fuel (dumpMembers (kv :: kvs) ++ ('}' :: rest)) = some (kv :: kvs, rest)
  | kv, [], fuel, rest, h => by
      cases fuel with
      | zero =>
          have := sizeJ_pos kv.2
          simp only [sizeM] at h
          omega
      | succ f =>
          have hv : sizeJ kv.2 ≤ f := by
            simp only [sizeM] at h
            omega
          have harg : dumpMembers [kv] ++ ('}' :: rest)
              = '"' :: (escapeList kv.1.data
                  ++ ('"' :: (':' :: ' ' :: (dumps kv.2
                      ++ (membersSep ([] : List (String × Json)) ++ ('}' :: rest)))))) := by
            simp [dumpMembers, dumpString]
          rw [harg]
          simp only [parseMembers, parseStringBody_escapeList,
            parseVal_dumps kv.2 f _ hv]
          simp [membersSep, String_mk_data]
  | kv, kv' :: kvs', fuel, rest, h => by
      cases fuel with
      | zero =>
          have := sizeJ_pos kv.2
          simp only [sizeM] at h
          omega
      | succ f =>
          have hv : sizeJ kv.2 ≤ f := by
            simp only [sizeM] at h
            omega
          have harg : dumpMembers (kv :: kv' :: kvs') ++ ('}' :: rest)
              = '"' :: (escapeList kv.1.data
                  ++ ('"' :: (':' :: ' ' :: (dumps kv.2
                      ++ (membersSep (kv' :: kvs') ++ ('}' :: rest)))))) := by
            simp [dumpMembers, dumpString]
          rw [harg]
          simp only [parseMembers, parseStringBody_escapeList,
            parseVal_dumps kv.2 f _ hv]
          have hrec : parseMembers f (dumpMembers (kv' :: kvs') ++ ('}' :: rest))
              = some (kv' :: kvs', rest) :=
            parseMembers_dumps kv' kvs' f rest (by
              have := sizeJ_pos kv.2
              simp only [sizeM] at h ⊢
              omega)
          have hsep : membersSep (kv' :: kvs') ++ ('}' :: rest)
              = ',' :: ' ' :: (dumpMembers (kv' :: kvs') ++ ('}' :: rest)) := by
            simp [membersSep, dumpMembers]
          simp only [hsep]
          simp [hrec, String_mk_data]
termination_by kv kvs _ _ _ => sizeM (kv :: kvs)
decreasing_by
  all_goals simp only [sizeJ, sizeL, sizeM]
  all_goals try have := sizeJ_pos kv.2
  all_goals omega

end

mutual

theorem sizeJ_le_length : ∀ j : Json, sizeJ j ≤ (dumps j).length
  | .str s => by simp [sizeJ, dumps, dumpString]
  | .bool b => by cases b <;> simp [sizeJ, dumps]
  | .arr [] => by simp [sizeJ, sizeL, dumps, dumpItems]
  | .arr (x :: xs) => by
      have h1 := sizeJ_le_length x
      have h2 := sizeL_le_length xs
      simp only [sizeJ, sizeL, dumps, dumpItems, List.length_cons, List.length_append]
      omega
  | .obj [] => by simp [sizeJ, sizeM, dumps, dumpMembers]
  | .obj (kv :: kvs) => by
      have h1 := sizeJ_le_length kv.2
      have h2 := sizeM_le_length kvs
      simp only [sizeJ, sizeM, dumps, dumpMembers, dumpString, List.length_cons,
        List.length_append]
      omega

theorem sizeL_le_length : ∀ xs : List Json, sizeL xs ≤ (itemsSep xs).length
  | [] => by simp [sizeL, itemsSep]
  | x :: xs => by
      have h1 := sizeJ_le_length x
      have h2 := sizeL_le_length xs
      simp only [sizeL, itemsSep, List.length_cons, List.length_append]
      omega

theorem sizeM_le_length : ∀ kvs : List (String × Json), sizeM kvs ≤ (membersSep kvs).length
  | [] => by simp [sizeM, membersSep]
  | kv :: kvs => by
      have h1 := sizeJ_le_length kv.2
      have h2 := sizeM_le_length kvs
      simp only [sizeM, membersSep, dumpString, List.length_cons, List.length_append]
      omega

end

/-- The codec round-trip at the `json` level: decoding a canonically
encoded value recovers it exactly. -/
theorem loads_dumps (j : Json) : loads (dumps j) = some j := by
  have h := parseVal_dumps j ((dumps j).length + 1) []
    (le_trans (sizeJ_le_length j) (Nat.le_succ _))
  rw [List.append_nil] at h
  simp [loads, h]

/-- One entry of the `wado_rs_retrieval` argument: a dict with
`retrieval_url`, `study_uid` and `series_uid` (orthanc-viewer/ups/workitem.py). -/
structure RetrievalItem where
  retrieval_url : String
  study_uid : String
  series_uid : String

/-- A Python value that reaches `str(...)` inside `update_state`: the code
passes ints on the progress path and (buggily) strings on the failure path. -/
inductive PyVal where
  | int (n : Int)
  | str (s : String)

/-- Python `str()` on such a value. -/
def pyStr : PyVal → String
  | .int n => toString n
  | .str s => s

/-- A DICOM-JSON attribute: `{"vr": ..., "Value": [...]}` in that order. -/
def tag (vr : String) (vals : List Json) : Json :=
  Json.obj [("vr", Json.str vr), ("Value", Json.arr vals)]

/-- `UPSWorkitem`: the workitem UID, the optional viewer callback URL, and
the DICOM-JSON dict `self.data` (orthanc-viewer/ups/workitem.py). -/
structure UPSWorkitem where
  workitem_uid : String
  viewer_url : Option String
  data : List (String × Json)

/-- One item of the Input Information Sequence, for the `i`-th retrieval
entry; `locUid i` stands for that item's `generate_uid()` call. -/
def input_item (locUid : Nat → String) (p : Nat × RetrievalItem) : Json :=
  Json.obj
    [("0040E020", tag "CS" [Json.str "DICOM"]),
     ("0020000D", tag "UI" [Json.str p.2.study_uid]),
     ("0020000E", tag "UI" [Json.str p.2.series_uid]),
     ("0040E025", tag "SQ"
       [Json.obj
         [("00081190", tag "UR" [Json.str p.2.retrieval_url]),
          ("0040E011", tag "UI" [Json.str (locUid p.1)])]])]

/-- `UPSWorkitem._build_input_sequence`: the Input Information Sequence
items. -/
def build_input_sequence (wado_rs_retrieval : List RetrievalItem)
    (locUid : Nat → String) : List Json :=
  wado_rs_retrieval.enum.map (input_item locUid)

/-- `UPSWorkitem._create_dicom_json`: the initial DICOM-JSON dict.  The
`series_uids` argument is accepted and unused, as in the source; `nowDT`
stands for the `datetime.now()` date+time string. -/
def create_dicom_json (workitem_uid study_uid : String) (series_uids : List String)
    (wado_rs_retrieval : List RetrievalItem) (priority : String)
    (nowDT : String) (locUid : Nat → String) : List (String × Json) :=
  [("00080016", tag "UI" [Json.str "1.2.840.10008.5.1.4.34.6.1"]),
   ("00080018", tag "UI" [Json.str workitem_uid]),
   ("0020000D", tag "UI" [Json.str study_uid]),
   ("00741000", tag "CS" [Json.str "SCHEDULED"]),
   ("00741200", tag "CS" [Json.str priority]),
   ("00741202", tag "LO" [Json.str "AI-INFERENCE"]),
   ("00741204", tag "LO" [Json.str "AI Model Inference"]),
   ("00404005", tag "DT" [Json.str nowDT]),
   ("00404041", tag "CS" [Json.str "READY"]),
   ("00404021", tag "SQ" (build_input_sequence wado_rs_retrieval locUid)),
   ("00404018", tag "SQ"
     [Json.obj
       [("00080100", tag "SH" [Json.str "110004"]),
        ("00080102", tag "SH" [Json.str "DCM"]),
        ("00080104", tag "LO" [Json.str "Computer Aided Detection"])]])]

/-- `UPSWorkitem.__init__`.  `genUid` stands for the `generate_uid()` call
for the workitem UID itself; it is used exactly when the caller passes no
(or a falsy, i.e. empty) `workitem_uid`. -/
def UPSWorkitem.init (study_uid : String) (series_uids : List String)
    (wado_rs_retrieval : List RetrievalItem) (priority : String)
    (workitem_uid : Option String) (viewer_url : Option String)
    (genUid : String) (nowDT : String) (locUid : Nat → String) : UPSWorkitem :=
  let uid := match workitem_uid with
    | some u => if u = "" then genUid else u
    | none => genUid
  ⟨uid, viewer_url,
   create_dicom_json uid study_uid series_uids wado_rs_retrieval priority nowDT locUid⟩

/-- `self.data["00741000"]["Value"][0]`, the current procedure step state
(`UPSWorkitem.get_state`); every dict this development builds carries the
attribute, so the partial Python access is total here via `Option`. -/
def get_state (data : List (String × Json)) : Option String :=
  match getKey data "00741000" with
  | some (Json.obj t) =>
      match getKey t "Value" with
      | some (Json.arr (Json.str s :: _)) => some s
      | _ => none
  | _ => none

/-- The `if new_state:` step of `update_state`: a truthy (non-`None`,
nonempty) state overwrites the Procedure Step State unconditionally. -/
def apply_new_state (data : List (String × Json)) (new_state : Option String) :
    List (String × Json) :=
  match new_state with
  | some s => if s = "" then data else setKey data "00741000" (tag "CS" [Json.str s])
  | none => data

/-- The progress block of `update_state`: when the (already updated)
state is IN_PROGRESS and a progress argument was given, build the
progress item (`str(progress_percent)` under 00741004, a truthy
description under 00741006) and store it as the one-item Progress
Information Sequence; otherwise leave the dict alone. -/
def apply_progress (data : List (String × Json)) (progress_percent : Option PyVal)
    (progress_description : Option String) : List (String × Json) :=
  if get_state data = some "IN_PROGRESS"
      ∧ (progress_percent.isSome ∨ progress_description.isSome) then
    let item :=
      (match progress_percent with
       | some p => [("00741004", tag "DS" [Json.str (pyStr p)])]
       | none => []) ++
      (match progress_description with
       | some dsc => if dsc = "" then [] else [("00741006", tag "ST" [Json.str dsc])]
       | none => [])
    if item.isEmpty then data else setKey data "00741002" (tag "SQ" [Json.obj item])
  else data

/-- The cancellation block of `update_state`: when the new state is
CANCELED, record the cancellation datetime and, when truthy, the reason. -/
def apply_cancellation (data : List (String × Json)) (new_state : Option String)
    (cancellation_reason : Option String) (nowDT : String) : List (String × Json) :=
  if new_state = some "CANCELED" then
    let d3 := setKey data "00404052" (tag "DT" [Json.str nowDT])
    match cancellation_reason with
    | some r => if r = "" then d3 else setKey d3 "00741238" (tag "LO" [Json.str r])
    | none => d3
  else data

/-- `UPSWorkitem.update_state`: the three blocks of the Python method in
sequence — unconditional state overwrite when `new_state` is truthy,
progress recording only while the (new) state is IN_PROGRESS, and the
cancellation datetime/reason when the new state is CANCELED.  `nowDT`
stands for the cancellation `datetime.now()` string. -/
def update_state (data : List (String × Json)) (new_state : Option String)
    (progress_percent : Option PyVal) (progress_description : Option String)
    (cancellation_reason : Option String) (nowDT : String) : List (String × Json) :=
  apply_cancellation
    (apply_progress (apply_new_state data new_state) progress_percent progress_description)
    new_state cancellation_reason nowDT

/-- `UPSWorkitem.add_output_reference`: append to the Output Information
Sequence, creating it when absent. -/
def add_output_reference (data : List (String × Json)) (series_uid study_uid : String) :
    List (String × Json) :=
  let entry := Json.obj
    [("0020000D", tag "UI" [Json.str study_uid]),
     ("0020000E", tag "UI" [Json.str series_uid])]
  match getKey data "00404033" with
  | some (Json.obj t) =>
      match getKey t "Value" with
      | some (Json.arr xs) => setKey data "00404033" (Json.obj (setKey t "Value" (Json.arr (xs ++ [entry]))))
      | _ => data
  | _ => setKey data "00404033" (tag "SQ" [entry])

/-- `UPSWorkitem.to_json`: `json.dumps(self.data)`. -/
def to_json (w : UPSWorkitem) : String :=
  String.mk (dumps (Json.obj w.data))

/-- `UPSWorkitem.from_json`: `json.loads` plus the supplied UID, via
`cls.__new__` (so no `viewer_url` is set — modelled as `none`).  The codec
is only ever applied to encoded workitems, whose top level is an object;
a non-object top level would make every later field access raise, so the
embedding rejects it at decode time. -/
def from_json (json_str : String) (workitem_uid : String) : Option UPSWorkitem :=
  match loads json_str.data with
  | some (Json.obj fields) => some ⟨workitem_uid, none, fields⟩
  | _ => none

/-- C3: for every workitem (any state, progress, cancellation and output
fields, and nested retrieval-location sequences of any length), decoding
the encoded form with the workitem's UID reproduces its data dict and its
UID exactly: `from_json (to_json w) w.workitem_uid` yields a workitem
whose `data` and `workitem_uid` equal `w`'s. -/
theorem workitem_codec_round_trip (w : UPSWorkitem) :
    (from_json (to_json w) w.workitem_uid).map UPSWorkitem.data = some w.data
    ∧ (from_json (to_json w) w.workitem_uid).map UPSWorkitem.workitem_uid
        = some w.workitem_uid := by
  have h : loads (to_json w).data = some (Json.obj w.data) := loads_dumps (Json.obj w.data)
  constructor <;> simp [from_json, h]

theorem get_state_setKey_state (d : List (String × Json)) (s : String) :
    get_state (setKey d "00741000" (tag "CS" [Json.str s])) = some s := by
  unfold get_state
  rw [getKey_setKey_same]
  rfl

theorem get_state_setKey_other (d : List (String × Json)) (k : String) (v : Json)
    (h : k ≠ "00741000") : get_state (setKey d k v) = get_state d := by
  unfold get_state
  rw [getKey_setKey_other _ _ _ _ h]

/-- Normal form of an in-progress `update_state` call with a percentage
and a nonempty description, the shape of every progress checkpoint the
processor writes. -/
theorem update_state_in_progress (d : List (String × Json)) (p : PyVal)
    (dsc : String) (hdsc : dsc ≠ "") (now : String) :
    update_state d (some "IN_PROGRESS") (some p) (some dsc) none now
      = setKey (setKey d "00741000" (tag "CS" [Json.str "IN_PROGRESS"])) "00741002"
          (tag "SQ" [Json.obj
            [("00741004", tag "DS" [Json.str (pyStr p)]),
             ("00741006", tag "ST" [Json.str dsc])]]) := by
  unfold update_state apply_new_state apply_progress apply_cancellation
  simp [get_state_setKey_state, hdsc]

/-- Normal form of the processor's failure transition
`update_state("CANCELED", error_msg)`: the error text rides in the
`progress_percent` slot and is dropped (the state is already CANCELED when
the progress branch tests it), no cancellation reason is recorded, only
the state and the cancellation datetime change. -/
theorem update_state_canceled (d : List (String × Json)) (pp : Option PyVal)
    (now : String) :
    update_state d (some "CANCELED") pp none none now
      = setKey (setKey d "00741000" (tag "CS" [Json.str "CANCELED"])) "00404052"
          (tag "DT" [Json.str now]) := by
  unfold update_state apply_new_state apply_progress apply_cancellation
  simp [get_state_setKey_state]

/-- Normal form of the completion transition
`update_state("COMPLETED", message)`: the message rides in the
`progress_percent` slot and is dropped; only the state changes. -/
theorem update_state_completed (d : List (String × Json)) (pp : Option PyVal)
    (now : String) :
    update_state d (some "COMPLETED") pp none none now
      = setKey d "00741000" (tag "CS" [Json.str "COMPLETED"]) := by
  unfold update_state apply_new_state apply_progress apply_cancellation
  simp [get_state_setKey_state]


theorem getKey02_set00 (d : List (String × Json)) (v : Json) :
    getKey (setKey d "00741000" v) "00741002" = getKey d "00741002" :=
  getKey_setKey_other _ _ _ _ (by decide)

theorem get_state_set02 (d : List (String × Json)) (v : Json) :
    get_state (setKey d "00741002" v) = get_state d :=
  get_state_setKey_other _ _ _ (by decide)

theorem get_state_set52 (d : List (String × Json)) (v : Json) :
    get_state (setKey d "00404052" v) = get_state d :=
  get_state_setKey_other _ _ _ (by decide)

theorem get_state_set38 (d : List (String × Json)) (v : Json) :
    get_state (setKey d "00741238" v) = get_state d :=
  get_state_setKey_other _ _ _ (by decide)

theorem getKey02_apply_new_state (d : List (String × Json)) (ns : Option String) :
    getKey (apply_new_state d ns) "00741002" = getKey d "00741002" := by
  rcases ns with _ | st
  · rfl
  · by_cases hst : st = ""
    · simp [apply_new_state, hst]
    · simp [apply_new_state, hst, getKey02_set00]

theorem get_state_progress_core (d : List (String × Json))
    (item : List (String × Json)) :
    get_state (if item.isEmpty then d
      else setKey d "00741002" (tag "SQ" [Json.obj item])) = get_state d := by
  split_ifs
  · rfl
  · exact get_state_set02 d _

theorem get_state_apply_progress (d : List (String × Json)) (pp : Option PyVal)
    (pd : Option String) : get_state (apply_progress d pp pd) = get_state d := by
  unfold apply_progress
  split_ifs with h
  · exact get_state_progress_core d _
  · rfl

theorem get_state_apply_cancellation (d : List (String × Json)) (ns : Option String)
    (cr : Option String) (now : String) :
    get_state (apply_cancellation d ns cr now) = get_state d := by
  unfold apply_cancellation
  split_ifs with hC
  · rcases cr with _ | r
    · simp [get_state_set52]
    · by_cases hr : r = ""
      · simp [hr, get_state_set52]
      · simp [hr, get_state_set38, get_state_set52]
  · rfl

theorem getKey02_apply_cancellation (d : List (String × Json)) (ns : Option String)
    (cr : Option String) (now : String) :
    getKey (apply_cancellation d ns cr now) "00741002" = getKey d "00741002" := by
  unfold apply_cancellation
  split_ifs with hC
  · rcases cr with _ | r
    · simp [getKey_setKey_other _ _ _ _ (by decide : ("00404052" : String) ≠ "00741002")]
    · by_cases hr : r = ""
      · simp [hr, getKey_setKey_other _ _ _ _ (by decide : ("00404052" : String) ≠ "00741002")]
      · simp [hr, getKey_setKey_other _ _ _ _ (by decide : ("00741238" : String) ≠ "00741002"),
          getKey_setKey_other _ _ _ _ (by decide : ("00404052" : String) ≠ "00741002")]
  · rfl

theorem apply_progress_of_not_in_progress (d : List (String × Json)) (pp : Option PyVal)
    (pd : Option String) (hst : get_state d ≠ some "IN_PROGRESS") :
    apply_progress d pp pd = d := by
  unfold apply_progress
  rw [if_neg (fun hc => hst hc.1)]

/-- The state `update_state` leaves behind is exactly the one the
overwrite step installs: the progress and cancellation blocks never touch
the Procedure Step State attribute. -/
theorem update_state_get_state (d : List (String × Json)) (ns : Option String)
    (pp : Option PyVal) (pd : Option String) (cr : Option String) (now : String) :
    get_state (update_state d ns pp pd cr now) = get_state (apply_new_state d ns) := by
  unfold update_state
  rw [get_state_apply_cancellation, get_state_apply_progress]

/-- When the state after the overwrite step is not IN_PROGRESS, the
Progress Information Sequence is untouched by `update_state`. -/
theorem update_state_getKey02_frame (d : List (String × Json)) (ns : Option String)
    (pp : Option PyVal) (pd : Option String) (cr : Option String) (now : String)
    (hst : get_state (apply_new_state d ns) ≠ some "IN_PROGRESS") :
    getKey (update_state d ns pp pd cr now) "00741002" = getKey d "00741002" := by
  unfold update_state
  rw [getKey02_apply_cancellation, apply_progress_of_not_in_progress _ _ _ hst,
    getKey02_apply_new_state]

/-- A concrete demonstration workitem: study 1.2.3, one series, one
retrieval location, default MEDIUM priority, with fixed stand-ins for the
generated UIDs and timestamps. -/
def wDemo : UPSWorkitem :=
  UPSWorkitem.init "1.2.3" ["1.2.3.4"]
    [⟨"http://orthanc-viewer:8042/dicom-web/studies/1.2.3/series/1.2.3.4", "1.2.3", "1.2.3.4"⟩]
    "MEDIUM" none none "2.25.101" "20250101120000" (fun _ => "2.25.102")

/-- C2: the claimed invariant fails in the code — `update_state` applies
any truthy `new_state` unconditionally, so a workitem that has reached the
terminal state COMPLETED is moved back to SCHEDULED by a further
`update_state` call: terminal states are not absorbing and the state does
return to SCHEDULED after leaving it. -/
theorem update_state_accepts_backward_transition :
    get_state (update_state wDemo.data (some "COMPLETED") none none none "20250101120001")
      = some "COMPLETED"
    ∧ get_state (update_state
        (update_state wDemo.data (some "COMPLETED") none none none "20250101120001")
        (some "SCHEDULED") none none none "20250101120002") = some "SCHEDULED" := by
  constructor
  · rfl
  · rfl

/-- C9: the `progress_percent` / `progress_description` arguments reach
the Progress Information Sequence (00741002) only when the state after the
call is IN_PROGRESS: a call that moves the workitem to COMPLETED or
CANCELED leaves 00741002 unchanged and discards the arguments, and
whenever 00741002 does change, the state after the call is IN_PROGRESS. -/
theorem progress_only_in_progress (d : List (String × Json)) (ns : Option String)
    (pp : Option PyVal) (pd : Option String) (cr : Option String) (now : String) :
    ((ns = some "COMPLETED" ∨ ns = some "CANCELED") →
      getKey (update_state d ns pp pd cr now) "00741002" = getKey d "00741002")
    ∧ (getKey (update_state d ns pp pd cr now) "00741002" ≠ getKey d "00741002" →
        get_state (update_state d ns pp pd cr now) = some "IN_PROGRESS") := by
  constructor
  · rintro (rfl | rfl) <;>
    · apply update_state_getKey02_frame
      simp [apply_new_state, get_state_setKey_state]
  · intro hne
    by_cases hst : get_state (apply_new_state d ns) = some "IN_PROGRESS"
    · rw [update_state_get_state]
      exact hst
    · exact absurd (update_state_getKey02_frame d ns pp pd cr now hst) hne

/-- Witness for `progress_only_in_progress` at a concrete call: a
COMPLETED transition carrying progress arguments leaves the Progress
Information Sequence untouched. -/
theorem progress_only_in_progress_witness :
    getKey (update_state wDemo.data (some "COMPLETED") (some (PyVal.int 50))
      (some "halfway") none "20250101120001") "00741002"
      = getKey wDemo.data "00741002" :=
  (progress_only_in_progress wDemo.data (some "COMPLETED") (some (PyVal.int 50))
    (some "halfway") none "20250101120001").1 (Or.inl rfl)

/-- `j.get(k)` on a decoded JSON value when a dict is expected. -/
def jGet (j : Json) (k : String) : Option Json :=
  match j with
  | Json.obj kvs => getKey kvs k
  | _ => none

/-- Python truthiness of a JSON value (empty string/list/dict and `False`
are falsy). -/
def jTruthy : Json → Bool
  | .str s => s ≠ ""
  | .bool b => b
  | .arr items => !items.isEmpty
  | .obj fields => !fields.isEmpty

/-- Python `k in j`: key lookup on a dict, element equality on a list,
substring on a string; a boolean is not iterable and raises. -/
def jContains : Json → String → Except String Bool
  | Json.obj kvs, k => .ok (getKey kvs k).isSome
  | Json.arr xs, k =>
      .ok (xs.any (fun x => match x with | Json.str s => s == k | _ => false))
  | Json.str s, k => .ok (decide (k.data <:+: s.data))
  | Json.bool _, _ => .error "argument of type bool is not iterable"

/-- `detect_response_format` (orthanc-router/server.py): bilateral when a
`left`/`right` key is present, with the heatmap variant when
`attention_maps` is also present; anything else raises `ValueError`. -/
def detect_response_format (model_results : Json) : Except String String := do
  let l ← jContains model_results "left"
  let has_bilateral ← if l then pure true else jContains model_results "right"
  let has_attention_maps ← jContains model_results "attention_maps"
  if has_bilateral && has_attention_maps then pure "bilateral_with_heatmap"
  else if has_bilateral then pure "bilateral"
  else throw "Unknown response format"

/-- `t["Value"][0]` as a string, with the `.get` defaults of the source:
`none` for a missing attribute or a missing/non-string first value. -/
def firstValueStr (t : List (String × Json)) : Option String :=
  match getKey t "Value" with
  | some (Json.arr (Json.str s :: _)) => some s
  | _ => none

/-- `item.get(k, {}).get("Value", [None])[0]` for a nested dict item. -/
def jGetFirstStr (j : Json) (k : String) : Option String :=
  match jGet j k with
  | some (Json.obj t) => firstValueStr t
  | _ => none

/-- `item.get(k, {}).get("Value", [])` for a nested dict item. -/
def jGetSeq (j : Json) (k : String) : List Json :=
  match jGet j k with
  | some (Json.obj t) =>
      (match getKey t "Value" with
       | some (Json.arr xs) => xs
       | _ => [])
  | _ => []

/-- One entry of the list `get_wado_rs_urls` returns: the dict with
`retrieval_url` and the (possibly `None`) study/series UIDs. -/
structure WadoUrl where
  retrieval_url : String
  study_uid : Option String
  series_uid : Option String

/-- The inner loop of `get_wado_rs_urls` for one Input Information
Sequence item: walk its WADO-RS Retrieval Sequence and keep every entry
with a truthy URL. -/
def collect_urls_from_item (item : Json) (acc : List WadoUrl) : List WadoUrl :=
  (jGetSeq item "0040E025").foldr (fun ret_item acc2 =>
    match jGetFirstStr ret_item "00081190" with
    | some url =>
        if url = "" then acc2
        else ⟨url, jGetFirstStr item "0020000D", jGetFirstStr item "0020000E"⟩ :: acc2
    | none => acc2) acc

/-- `UPSWorkitem.get_wado_rs_urls`: walk the Input Information Sequence
and collect the WADO-RS retrieval URLs with their study/series UIDs,
skipping entries with a falsy URL. -/
def get_wado_rs_urls (data : List (String × Json)) : List WadoUrl :=
  let input_seq :=
    match getKey data "00404021" with
    | some (Json.obj t) =>
        (match getKey t "Value" with
         | some (Json.arr xs) => xs
         | _ => [])
    | _ => []
  input_seq.foldr collect_urls_from_item []

/-- `UPSWorkitem.get_study_uid`: `self.data.get("0020000D", {}).get("Value", [None])[0]`. -/
def get_study_uid (data : List (String × Json)) : Option String :=
  match getKey data "0020000D" with
  | some (Json.obj t) => firstValueStr t
  | _ => none

/-- The outcome of the `requests.post` to the inference backend: either a
raised `RequestException` or a response with status code, text and parsed
JSON body. -/
inductive ModelCallOutcome where
  | exc (msg : String)
  | resp (status : Nat) (text : String) (body : Json)

/-- The I/O environment of one `process_workitem` run.  Each field stands
for the outcome of an external interaction; blocks that contain no
workitem-state writes (the WADO-RS fetch with its multipart parsing and
`dcmread`, and the pydicom SR/SC builders, which live in external
libraries or in `server.py`'s DICOM-construction code) are abstracted to
their success-or-raised-message outcome, which is exact with respect to
the persisted-state trace because those blocks never call
`update_state`/`store_workitem`. -/
structure ProcEnv where
  modelCall : ModelCallOutcome
  retrieval : Except String Unit
  srCreate : Except String Unit
  scCreate : Except String Unit
  upload : Nat → Except String Nat
  now : String

/-- One observable effect of the pipeline: a `store_workitem` persist or a
`notify_all_subscribers` fan-out, each carrying the workitem snapshot. -/
inductive PEvent where
  | store (d : List (String × Json))
  | notify (d : List (String × Json))

/-- `attention_maps.get("data")` truthiness; a non-dict truthy value has
no `.get` and raises. -/
def attDataTruthy : Json → Except String Bool
  | Json.obj kvs =>
      .ok (match getKey kvs "data" with
           | some v => jTruthy v
           | none => false)
  | _ => .error "attention_maps has no attribute get"

/-- Format detection plus result construction (processor.py lines 236-267):
which result artifacts get built, or the raised error.  The SR is built for
both formats; the SC only when `attention_maps` and its `data` are truthy. -/
def detect_and_build (env : ProcEnv) (body : Json) : Except String (List String) := do
  let fmt ← detect_response_format body
  if fmt = "bilateral" then
    match env.srCreate with
    | .error e => throw e
    | .ok _ => pure ["SR-Bilateral"]
  else if fmt = "bilateral_with_heatmap" then
    match env.srCreate with
    | .error e => throw e
    | .ok _ =>
        match body with
        | Json.obj kvs =>
            let attention_maps := (getKey kvs "attention_maps").getD (Json.obj [])
            if jTruthy attention_maps then
              match attDataTruthy attention_maps with
              | .error e => throw e
              | .ok true =>
                  match env.scCreate with
                  | .error e => throw e
                  | .ok _ => pure ["SR-Bilateral-MST", "SC-MultiFrame"]
              | .ok false => pure ["SR-Bilateral-MST"]
            else pure ["SR-Bilateral-MST"]
        | _ => throw "model_results has no attribute get"
  else pure []

/-- The upload loop (processor.py lines 280-294): sequential posts; a
raised exception aborts the loop (and the enclosing block), a non-200
status is only logged and the loop continues. -/
def run_uploads (upload : Nat → Except String Nat) :
    Nat → List String → Except String (List (String × Nat))
  | _, [] => .ok []
  | i, dsc :: rest =>
      match upload i with
      | .error e => .error e
      | .ok status => (run_uploads upload (i + 1) rest).map (fun l => (dsc, status) :: l)

/-- The step-4/5 `try` block of `process_workitem` (lines 156-298): the
70/85/95% checkpoints with the retrieval, result construction and upload
in between; returns the events so far, the current data, and the raised
error text if any. -/
def process_results (env : ProcEnv) (body : Json) (wado_rs_urls : List WadoUrl)
    (d : List (String × Json)) :
    List PEvent × List (String × Json) × Option String :=
  match wado_rs_urls with
  | [] => ([], d, some "No retrieval URLs in workitem")
  | _ :: _ =>
    let d5 := update_state d (some "IN_PROGRESS") (some (.int 70))
      (some "Retrieving source images") none env.now
    let t5 : List PEvent := [.store d5, .notify d5]
    match env.retrieval with
    | .error msg => (t5, d5, some ("Failed to retrieve sample DICOM via WADO-RS: " ++ msg))
    | .ok _ =>
      let d6 := update_state d5 (some "IN_PROGRESS") (some (.int 85))
        (some "Creating DICOM results") none env.now
      let t6 := t5 ++ [.store d6, .notify d6]
      match detect_and_build env body with
      | .error msg => (t6, d6, some msg)
      | .ok uploads =>
        let d7 := update_state d6 (some "IN_PROGRESS") (some (.int 95))
          (some "Uploading results to viewer") none env.now
        let t7 := t6 ++ [.store d7, .notify d7]
        match run_uploads env.upload 0 uploads with
        | .error msg => (t7, d7, some msg)
        | .ok _ => (t7, d7, none)

/-- `process_workitem` (orthanc-router/ups/processor.py): the full
pipeline of one run, as the ordered list of persist/notify events plus the
final in-memory workitem data.  Failure transitions call
`update_state("CANCELED", error_msg)` positionally, so the error text
lands in the `progress_percent` argument — exactly as the source does. -/
def process_workitem (env : ProcEnv) (d0 : List (String × Json)) :
    List PEvent × List (String × Json) :=
  let d1 := update_state d0 (some "IN_PROGRESS") (some (.int 10))
    (some "Starting AI inference") none env.now
  let t1 : List PEvent := [.store d1, .notify d1]
  let wado_rs_urls := get_wado_rs_urls d1
  let d2 := update_state d1 (some "IN_PROGRESS") (some (.int 20))
    (some "Retrieved study metadata") none env.now
  let t2 := t1 ++ [.store d2, .notify d2]
  let d3 := update_state d2 (some "IN_PROGRESS") (some (.int 30))
    (some "Sending data to AI model") none env.now
  let t3 := t2 ++ [.store d3, .notify d3]
  match env.modelCall with
  | .exc msg =>
      let err := "Network error calling model: " ++ msg
      let dC := update_state d3 (some "CANCELED") (some (.str err)) none none env.now
      (t3 ++ [.store dC, .notify dC], dC)
  | .resp status text body =>
      let d4 := update_state d3 (some "IN_PROGRESS") (some (.int 50))
        (some "AI model analyzing data") none env.now
      let t4 := t3 ++ [.store d4, .notify d4]
      if status ≠ 200 then
        let err := "Model error: " ++ toString status ++ " - " ++ text
        let dC := update_state d4 (some "CANCELED") (some (.str err)) none none env.now
        (t4 ++ [.store dC, .notify dC], dC)
      else
        match process_results env body wado_rs_urls d4 with
        | (tr, dr, some e) =>
            let err := "Error processing results: " ++ e
            let dC := update_state dr (some "CANCELED") (some (.str err)) none none env.now
            (t4 ++ (tr ++ [.store dC, .notify dC]), dC)
        | (tr, dr, none) =>
            let dD := update_state dr (some "COMPLETED")
              (some (.str "AI inference completed successfully")) none none env.now
            (t4 ++ (tr ++ [.store dD, .notify dD]), dD)

/-- Decimal digit value of a character, for reading back the stored
progress strings. -/
def decDigit (c : Char) : Option Nat :=
  if '0' ≤ c ∧ c ≤ '9' then some (c.toNat - '0'.toNat) else none

def decToNatAux : List Char → Nat → Option Nat
  | [], acc => some acc
  | c :: cs, acc =>
      match decDigit c with
      | some d => decToNatAux cs (acc * 10 + d)
      | none => none

/-- The numeric reading of a stored `progress_percent` string. -/
def decToNat : List Char → Option Nat
  | [] => none
  | c :: cs => decToNatAux (c :: cs) 0

/-- The persisted progress percentage of a workitem snapshot: the first
item of the Progress Information Sequence, attribute 00741004, first
value, read back as a number. -/
def progress_percent_of (d : List (String × Json)) : Option Nat :=
  match getKey d "00741002" with
  | some (Json.obj t) =>
      match getKey t "Value" with
      | some (Json.arr (Json.obj item :: _)) =>
          (match getKey item "00741004" with
           | some (Json.obj t2) =>
               (match getKey t2 "Value" with
                | some (Json.arr (Json.str s :: _)) => decToNat s.data
                | _ => none)
           | _ => none)
      | _ => none
  | _ => none

/-- Every progress checkpoint the processor writes lands the snapshot in
state IN_PROGRESS with exactly the written percentage. -/
theorem checkpoint_eval (d : List (String × Json)) (p : PyVal) (dsc : String)
    (hdsc : dsc ≠ "") (now : String) :
    get_state (update_state d (some "IN_PROGRESS") (some p) (some dsc) none now)
      = some "IN_PROGRESS"
    ∧ progress_percent_of (update_state d (some "IN_PROGRESS") (some p) (some dsc) none now)
      = decToNat (pyStr p).data := by
  rw [update_state_in_progress d p dsc hdsc now]
  constructor
  · rw [get_state_set02, get_state_setKey_state]
  · unfold progress_percent_of
    rw [getKey_setKey_same]
    rfl

/-- The failure transition leaves the snapshot CANCELED. -/
theorem canceled_eval (d : List (String × Json)) (pp : Option PyVal) (now : String) :
    get_state (update_state d (some "CANCELED") pp none none now) = some "CANCELED" := by
  rw [update_state_canceled, get_state_set52, get_state_setKey_state]

/-- The completion transition leaves the snapshot COMPLETED. -/
theorem completed_eval (d : List (String × Json)) (pp : Option PyVal) (now : String) :
    get_state (update_state d (some "COMPLETED") pp none none now) = some "COMPLETED" := by
  rw [update_state_completed, get_state_setKey_state]

/-- The persisted progress values of the IN_PROGRESS snapshots of a trace,
in write order. -/
def in_progress_stores (t : List PEvent) : List Nat :=
  t.filterMap (fun e =>
    match e with
    | .store d => if get_state d = some "IN_PROGRESS" then progress_percent_of d else none
    | .notify _ => none)

theorem get_state_checkpoint (d : List (String × Json)) (p : PyVal) (dsc : String)
    (now : String) (hdsc : dsc ≠ "") :
    get_state (update_state d (some "IN_PROGRESS") (some p) (some dsc) none now)
      = some "IN_PROGRESS" :=
  (checkpoint_eval d p dsc hdsc now).1

theorem progress_checkpoint (d : List (String × Json)) (p : PyVal) (dsc : String)
    (now : String) (hdsc : dsc ≠ "") :
    progress_percent_of (update_state d (some "IN_PROGRESS") (some p) (some dsc) none now)
      = decToNat (pyStr p).data :=
  (checkpoint_eval d p dsc hdsc now).2

theorem dec10 : decToNat (pyStr (PyVal.int 10)).data = some 10 := rfl
theorem dec20 : decToNat (pyStr (PyVal.int 20)).data = some 20 := rfl
theorem dec30 : decToNat (pyStr (PyVal.int 30)).data = some 30 := rfl
theorem dec50 : decToNat (pyStr (PyVal.int 50)).data = some 50 := rfl
theorem dec70 : decToNat (pyStr (PyVal.int 70)).data = some 70 := rfl
theorem dec85 : decToNat (pyStr (PyVal.int 85)).data = some 85 := rfl
theorem dec95 : decToNat (pyStr (PyVal.int 95)).data = some 95 := rfl

/-- The step-4/5 block persists, among IN_PROGRESS snapshots, one of the
initial segments of 70, 85, 95 — depending on where it stops. -/
theorem process_results_progress (env : ProcEnv) (body : Json)
    (wado_rs_urls : List WadoUrl) (d : List (String × Json)) :
    in_progress_stores (process_results env body wado_rs_urls d).1 = []
    ∨ in_progress_stores (process_results env body wado_rs_urls d).1 = [70]
    ∨ in_progress_stores (process_results env body wado_rs_urls d).1 = [70, 85]
    ∨ in_progress_stores (process_results env body wado_rs_urls d).1 = [70, 85, 95] := by
  unfold process_results
  cases wado_rs_urls with
  | nil => left; rfl
  | cons u us =>
      rcases hretr : env.retrieval with ⟨msg⟩ | ⟨⟩
      · right; left
        simp [hretr, in_progress_stores, get_state_checkpoint, progress_checkpoint,
          dec70]
      · rcases hdb : detect_and_build env body with ⟨msg⟩ | ⟨uploads⟩
        · right; right; left
          simp [hretr, hdb, in_progress_stores, get_state_checkpoint,
            progress_checkpoint, dec70, dec85]
        · rcases hup : run_uploads env.upload 0 uploads with ⟨msg⟩ | ⟨l⟩
          · right; right; right
            simp [hretr, hdb, hup, in_progress_stores, get_state_checkpoint,
              progress_checkpoint, dec70, dec85, dec95]
          · right; right; right
            simp [hretr, hdb, hup, in_progress_stores, get_state_checkpoint,
              progress_checkpoint, dec70, dec85, dec95]

/-- An environment in which every external interaction succeeds and the
model returns a bilateral result. -/
def envOK : ProcEnv :=
  ⟨ModelCallOutcome.resp 200 "OK"
      (Json.obj [("left", Json.obj [("prediction", Json.str "negative")]),
                 ("right", Json.obj [("prediction", Json.str "negative")])]),
   Except.ok (), Except.ok (), Except.ok (), fun _ => Except.ok 200, "20250101120500"⟩

/-- C4: within one `process_workitem` run, the persisted `progress_percent`
values of the snapshots whose state is IN_PROGRESS, taken in write order,
are monotonically non-decreasing — for every environment and every
starting workitem data — and the fully successful run writes exactly
10, 20, 30, 50, 70, 85, 95. -/
theorem pipeline_progress_monotone :
    (∀ (env : ProcEnv) (d0 : List (String × Json)),
      List.Chain' (· ≤ ·) (in_progress_stores (process_workitem env d0).1))
    ∧ in_progress_stores (process_workitem envOK wDemo.data).1
        = [10, 20, 30, 50, 70, 85, 95] := by
  constructor
  · intro env d0
    unfold process_workitem
    rcases hmc : env.modelCall with ⟨msg⟩ | ⟨status, text, body⟩
    · simp [hmc, in_progress_stores, get_state_checkpoint, progress_checkpoint,
        canceled_eval, dec10, dec20, dec30]
    · by_cases hst : status = 200
      · subst hst
        rcases hpr : process_results env body
            (get_wado_rs_urls (update_state d0 (some "IN_PROGRESS") (some (.int 10))
              (some "Starting AI inference") none env.now))
            (update_state (update_state (update_state (update_state d0
              (some "IN_PROGRESS") (some (.int 10)) (some "Starting AI inference") none env.now)
              (some "IN_PROGRESS") (some (.int 20)) (some "Retrieved study metadata") none env.now)
              (some "IN_PROGRESS") (some (.int 30)) (some "Sending data to AI model") none env.now)
              (some "IN_PROGRESS") (some (.int 50)) (some "AI model analyzing data") none env.now)
          with ⟨tr, dr, err⟩
        have hin := process_results_progress env body
            (get_wado_rs_urls (update_state d0 (some "IN_PROGRESS") (some (.int 10))
              (some "Starting AI inference") none env.now))
            (update_state (update_state (update_state (update_state d0
              (some "IN_PROGRESS") (some (.int 10)) (some "Starting AI inference") none env.now)
              (some "IN_PROGRESS") (some (.int 20)) (some "Retrieved study metadata") none env.now)
              (some "IN_PROGRESS") (some (.int 30)) (some "Sending data to AI model") none env.now)
              (some "IN_PROGRESS") (some (.int 50)) (some "AI model analyzing data") none env.now)
        rw [hpr] at hin
        rcases err with _ | e <;>
        · rcases hin with h | h | h | h <;>
          · simp only [in_progress_stores] at h
            simp [hmc, hpr, in_progress_stores, get_state_checkpoint, progress_checkpoint,
              canceled_eval, completed_eval, dec10, dec20, dec30, dec50]
            all_goals simp [h]
      · simp [hmc, hst, in_progress_stores, get_state_checkpoint, progress_checkpoint,
          canceled_eval, dec10, dec20, dec30, dec50]
  · rfl

/-- The environment of a run in which the inference backend answers
HTTP 500 with body text `Internal Server Error`. -/
def env500 : ProcEnv :=
  ⟨ModelCallOutcome.resp 500 "Internal Server Error" (Json.obj []),
   Except.ok (), Except.ok (), Except.ok (), fun _ => Except.ok 200, "20250101120500"⟩

/-- C1 (divergence witness): on a non-success HTTP status from the
inference backend the run does transition the workitem to CANCELED,
persists it, notifies, and executes no further pipeline step (the trace is
exactly the four progress checkpoints and then the CANCELED
persist+notify) — but the failure detail is NOT recorded as the
cancellation reason: `update_state("CANCELED", error_msg)` passes the
error text positionally as `progress_percent`, so attribute 00741238
(Reason For Cancellation) is absent from the final snapshot. -/
theorem processor_http_500_no_cancellation_reason :
    get_state (process_workitem env500 wDemo.data).2 = some "CANCELED"
    ∧ getKey (process_workitem env500 wDemo.data).2 "00741238" = none
    ∧ (process_workitem env500 wDemo.data).1.length = 10
    ∧ (process_workitem env500 wDemo.data).1.getLast?
        = some (PEvent.notify (process_workitem env500 wDemo.data).2)
    ∧ (process_workitem env500 wDemo.data).1.get? 8
        = some (PEvent.store (process_workitem env500 wDemo.data).2) := by
  refine ⟨rfl, rfl, rfl, rfl, rfl⟩

theorem collect_input_item (locUid : Nat → String) (n : Nat) (it : RetrievalItem)
    (acc : List WadoUrl) :
    collect_urls_from_item (input_item locUid (n, it)) acc
      = if it.retrieval_url = "" then acc
        else ⟨it.retrieval_url, some it.study_uid, some it.series_uid⟩ :: acc := rfl

theorem wado_urls_of_enumFrom (locUid : Nat → String) :
    ∀ (items : List RetrievalItem) (n : Nat),
    (∀ it ∈ items, it.retrieval_url ≠ "") →
    ((List.enumFrom n items).map (input_item locUid)).foldr collect_urls_from_item []
      = items.map (fun it => ⟨it.retrieval_url, some it.study_uid, some it.series_uid⟩)
  | [], n, _ => rfl
  | it :: rest, n, h => by
      have hrest := wado_urls_of_enumFrom locUid rest (n + 1)
        (fun x hx => h x (List.mem_cons_of_mem _ hx))
      simp only [List.enumFrom, List.map, List.foldr, hrest, collect_input_item]
      rw [if_neg (h it (List.mem_cons_self _ _))]

/-- The retrieval locations recorded at construction read back exactly as
they were given, provided every URL is truthy. -/
theorem get_wado_rs_urls_create (uid study : String) (series_uids : List String)
    (items : List RetrievalItem) (priority now : String) (locUid : Nat → String)
    (h : ∀ it ∈ items, it.retrieval_url ≠ "") :
    get_wado_rs_urls (create_dicom_json uid study series_uids items priority now locUid)
      = items.map (fun it => ⟨it.retrieval_url, some it.study_uid, some it.series_uid⟩) := by
  have h21 : getKey (create_dicom_json uid study series_uids items priority now locUid)
      "00404021" = some (tag "SQ" (build_input_sequence items locUid)) := rfl
  unfold get_wado_rs_urls
  rw [h21]
  show (build_input_sequence items locUid).foldr collect_urls_from_item [] = _
  unfold build_input_sequence
  exact wado_urls_of_enumFrom locUid items 0 h

/-- The construction path of `CreateWorkitem` (orthanc-router/ups/routes.py):
reject a falsy `study_uid` with a 400, otherwise build one retrieval
location per series from the WADO-RS base and construct the workitem via
`UPSWorkitem(...)` with no caller-supplied UID. -/
def create_workitem_request (study_uid : String) (series_uids : List String)
    (wado_rs_base : String) (priority : String)
    (genUid : String) (nowDT : String) (locUid : Nat → String) :
    Except String UPSWorkitem :=
  if study_uid = "" then .error "Missing study_uid in request body"
  else
    let wado_rs_retrieval := series_uids.map (fun series_uid =>
      (⟨wado_rs_base ++ "/studies/" ++ study_uid ++ "/series/" ++ series_uid,
        study_uid, series_uid⟩ : RetrievalItem))
    .ok (UPSWorkitem.init study_uid series_uids wado_rs_retrieval priority
      none none genUid nowDT locUid)

/-- C5: constructing a new workitem fails exactly on an empty (falsy)
`study_uid`; on any other input it succeeds, assigns the freshly generated
UID (not any caller argument), sets the initial state SCHEDULED, and
populates the study UID, priority and retrieval locations from the
arguments. -/
theorem create_workitem_spec (study_uid : String) (series_uids : List String)
    (wado_rs_base : String) (priority : String) (genUid : String) (nowDT : String)
    (locUid : Nat → String) :
    (study_uid = "" →
      create_workitem_request study_uid series_uids wado_rs_base priority genUid nowDT locUid
        = .error "Missing study_uid in request body")
    ∧ (study_uid ≠ "" →
      ∃ w, create_workitem_request study_uid series_uids wado_rs_base priority genUid nowDT locUid
          = .ok w
        ∧ w.workitem_uid = genUid
        ∧ get_state w.data = some "SCHEDULED"
        ∧ get_study_uid w.data = some study_uid
        ∧ getKey w.data "00741200" = some (tag "CS" [Json.str priority])
        ∧ get_wado_rs_urls w.data = series_uids.map (fun su =>
            ⟨wado_rs_base ++ "/studies/" ++ study_uid ++ "/series/" ++ su,
             some study_uid, some su⟩)) := by
  constructor
  · intro h
    simp [create_workitem_request, h]
  · intro h
    refine ⟨UPSWorkitem.init study_uid series_uids
        (series_uids.map (fun series_uid =>
          (⟨wado_rs_base ++ "/studies/" ++ study_uid ++ "/series/" ++ series_uid,
            study_uid, series_uid⟩ : RetrievalItem)))
        priority none none genUid nowDT locUid,
      by simp [create_workitem_request, h], rfl, rfl, rfl, rfl, ?_⟩
    show get_wado_rs_urls (create_dicom_json genUid study_uid series_uids _ priority nowDT locUid) = _
    rw [get_wado_rs_urls_create _ _ _ _ _ _ _ (by
      intro it hit
      simp only [List.mem_map] at hit
      obtain ⟨su, _, rfl⟩ := hit
      intro hempty
      have hcontra : (wado_rs_base ++ "/studies/" ++ study_uid ++ "/series/" ++ su).length
          = 0 := by
        rw [show (wado_rs_base ++ "/studies/" ++ study_uid ++ "/series/" ++ su) = ""
          from hempty]
        rfl
      rw [String.length_append, String.length_append, String.length_append,
        String.length_append] at hcontra
      have h9 : ("/studies/" : String).length = 9 := rfl
      have h8 : ("/series/" : String).length = 8 := rfl
      omega)]
    simp [List.map_map]

/-- Witness for `create_workitem_spec` at concrete arguments. -/
theorem create_workitem_spec_witness :
    ("1.2.3" : String) ≠ ""
    ∧ ∃ w, create_workitem_request "1.2.3" ["1.2.3.4"] "http://orthanc-viewer:8042/dicom-web"
          "MEDIUM" "2.25.201" "20250101120000" (fun _ => "2.25.202") = .ok w
        ∧ w.workitem_uid = "2.25.201"
        ∧ get_state w.data = some "SCHEDULED"
        ∧ get_study_uid w.data = some "1.2.3"
        ∧ getKey w.data "00741200" = some (tag "CS" [Json.str "MEDIUM"])
        ∧ get_wado_rs_urls w.data = ["1.2.3.4"].map (fun su =>
            ⟨"http://orthanc-viewer:8042/dicom-web" ++ "/studies/" ++ "1.2.3"
              ++ "/series/" ++ su, some "1.2.3", some su⟩) :=
  ⟨by decide,
   (create_workitem_spec "1.2.3" ["1.2.3.4"] "http://orthanc-viewer:8042/dicom-web"
     "MEDIUM" "2.25.201" "20250101120000" (fun _ => "2.25.202")).2 (by decide)⟩

/-- One bucket of the Orthanc key-value store: keys and byte-string
values; `StoreKeyValue` overwrites, `DeleteKeyValue` removes, iteration
walks the entries. -/
abbrev KVBucket := List (List Char × List Char)

/-- `orthanc.StoreKeyValue`: overwrite the existing entry or append. -/
def kvPut : KVBucket → List Char → List Char → KVBucket
  | [], k, v => [(k, v)]
  | e :: rest, k, v => if e.1 = k then (k, v) :: rest else e :: kvPut rest k v

/-- `orthanc.GetKeyValue`: the stored value, or `None`. -/
def kvGet : KVBucket → List Char → Option (List Char)
  | [], _ => none
  | e :: rest, k => if e.1 = k then some e.2 else kvGet rest k

/-- `orthanc.DeleteKeyValue`: drop the entry for the key. -/
def kvDelete (b : KVBucket) (k : List Char) : KVBucket :=
  b.filter (fun e => !(e.1 = k : Bool))

theorem kvGet_kvPut_same (b : KVBucket) (k v : List Char) :
    kvGet (kvPut b k v) k = some v := by
  induction b with
  | nil => simp [kvPut, kvGet]
  | cons e rest ih =>
      by_cases h : e.1 = k
      · simp [kvPut, kvGet, h]
      · simp [kvPut, kvGet, h, ih]

theorem kvGet_kvPut_other (b : KVBucket) (k k' v : List Char) (hne : k ≠ k') :
    kvGet (kvPut b k v) k' = kvGet b k' := by
  induction b with
  | nil => simp [kvPut, kvGet, hne]
  | cons e rest ih =>
      by_cases h : e.1 = k
      · simp [kvPut, kvGet, h, hne]
      · simp only [kvPut, if_neg h, kvGet]
        by_cases h' : e.1 = k'
        · simp [h']
        · simp [h', ih]

theorem kvGet_kvDelete_same (b : KVBucket) (k : List Char) :
    kvGet (kvDelete b k) k = none := by
  induction b with
  | nil => rfl
  | cons e rest ih =>
      by_cases h : e.1 = k
      · simp only [kvDelete] at ih ⊢
        simp [List.filter_cons, h, ih]
      · simp only [kvDelete] at ih ⊢
        simp [List.filter_cons, kvGet, h, ih]

theorem kvGet_kvDelete_other (b : KVBucket) (k k' : List Char) (hne : k ≠ k') :
    kvGet (kvDelete b k) k' = kvGet b k' := by
  induction b with
  | nil => rfl
  | cons e rest ih =>
      by_cases h : e.1 = k
      · have h2 : ¬ e.1 = k' := by rw [h]; exact hne
        simp only [kvDelete] at ih ⊢
        simp [List.filter_cons, h, kvGet, h2, ih, hne]
      · by_cases h' : e.1 = k'
        · simp only [kvDelete] at ih ⊢
          simp [List.filter_cons, h, kvGet, h', Ne.symm hne]
        · simp only [kvDelete] at ih ⊢
          simp [List.filter_cons, h, kvGet, h', ih]

/-- The key of one workitem record: `KEY_PREFIX` + UID
(orthanc-router/ups/storage.py). -/
def wkKey (workitem_uid : String) : List Char :=
  "upsworkitem".data ++ workitem_uid.data

/-- The well-known index key, `INDEX_KEY = "upsworkitemindex"`.  Note that
it collides with the record key of the (never legitimately generated) UID
`"index"`. -/
def indexKey : List Char :=
  "upsworkitemindex".data

/-- `UPSStorage._get_index`: read and decode the UID list; `None`, a decode
failure, or a non-list document all yield `[]` (the only writer below
stores arrays of strings, so the element filter is vacuous on reachable
states). -/
def get_index (b : KVBucket) : List String :=
  match kvGet b indexKey with
  | none => []
  | some v =>
      match loads v with
      | some (Json.arr xs) =>
          xs.filterMap (fun x => match x with | Json.str s => some s | _ => none)
      | _ => []

/-- `UPSStorage._add_to_index`: append the UID when absent and write the
list back. -/
def add_to_index (b : KVBucket) (workitem_uid : String) : KVBucket :=
  if workitem_uid ∈ get_index b then b
  else kvPut b indexKey (dumps (Json.arr ((get_index b ++ [workitem_uid]).map Json.str)))

/-- `UPSStorage._remove_from_index`: `list.remove` the first occurrence
when present and write the list back. -/
def remove_from_index (b : KVBucket) (workitem_uid : String) : KVBucket :=
  if workitem_uid ∈ get_index b then
    kvPut b indexKey (dumps (Json.arr (((get_index b).erase workitem_uid).map Json.str)))
  else b

/-- `UPSStorage.store_workitem`: serialize and write the record, then
update the index. -/
def store_workitem (b : KVBucket) (w : UPSWorkitem) : KVBucket :=
  add_to_index (kvPut b (wkKey w.workitem_uid) (to_json w).data) w.workitem_uid

/-- `UPSStorage.delete_workitem`: drop the record, then the index entry. -/
def delete_workitem (b : KVBucket) (workitem_uid : String) : KVBucket :=
  remove_from_index (kvDelete b (wkKey workitem_uid)) workitem_uid

/-- One storage operation of a sequential history. -/
inductive StoreOp where
  | store (w : UPSWorkitem)
  | delete (uid : String)

def opUid : StoreOp → String
  | .store w => w.workitem_uid
  | .delete uid => uid

def applyOp (b : KVBucket) : StoreOp → KVBucket
  | .store w => store_workitem b w
  | .delete uid => delete_workitem b uid

/-- A sequential history of store/delete operations against an initially
empty bucket. -/
def runOps (ops : List StoreOp) : KVBucket :=
  ops.foldl applyOp []

theorem strs_extract (l : List String) :
    (l.map Json.str).filterMap
      (fun x => match x with | Json.str s => some s | _ => none) = l := by
  induction l with
  | nil => rfl
  | cons s rest ih => simp [ih]

theorem wkKey_inj (u1 u2 : String) (h : wkKey u1 = wkKey u2) : u1 = u2 := by
  unfold wkKey at h
  have h2 := List.append_cancel_left h
  have h3 : String.mk u1.data = String.mk u2.data := by rw [h2]
  rw [String_mk_data, String_mk_data] at h3
  exact h3

theorem wkKey_eq_indexKey (u : String) : wkKey u = indexKey ↔ u = "index" := by
  constructor
  · intro h
    have h2 : wkKey u = wkKey "index" := h
    exact wkKey_inj _ _ h2
  · intro h
    subst h
    rfl

theorem get_index_kvPut_record (b : KVBucket) (u : String) (p : List Char)
    (hu : u ≠ "index") : get_index (kvPut b (wkKey u) p) = get_index b := by
  unfold get_index
  rw [kvGet_kvPut_other]
  intro h
  exact hu ((wkKey_eq_indexKey u).mp h)

theorem get_index_kvDelete_record (b : KVBucket) (u : String) (hu : u ≠ "index") :
    get_index (kvDelete b (wkKey u)) = get_index b := by
  unfold get_index
  rw [kvGet_kvDelete_other]
  intro h
  exact hu ((wkKey_eq_indexKey u).mp h)

theorem get_index_kvPut_index (b : KVBucket) (l : List String) :
    get_index (kvPut b indexKey (dumps (Json.arr (l.map Json.str)))) = l := by
  unfold get_index
  rw [kvGet_kvPut_same]
  simp [loads_dumps]
  induction l with
  | nil => rfl
  | cons s rest ih => simp [ih]

/-- The store/index consistency property: the index lists each UID at most
once, and (away from the reserved colliding name `"index"`) a UID is
indexed exactly when a record sits under its key. -/
def StorageInv (b : KVBucket) : Prop :=
  (get_index b).Nodup
  ∧ ∀ uid : String, uid ≠ "index" →
      (uid ∈ get_index b ↔ (kvGet b (wkKey uid)).isSome)

theorem storageInv_empty : StorageInv ([] : KVBucket) := by
  constructor
  · simp [get_index, kvGet]
  · intro uid _
    simp [get_index, kvGet]

theorem storageInv_store (b : KVBucket) (w : UPSWorkitem)
    (hu : w.workitem_uid ≠ "index") (h : StorageInv b) :
    StorageInv (store_workitem b w) := by
  obtain ⟨hnd, hiff⟩ := h
  have hkne : wkKey w.workitem_uid ≠ indexKey :=
    fun hk => hu ((wkKey_eq_indexKey _).mp hk)
  have hidx1 : get_index (kvPut b (wkKey w.workitem_uid) (to_json w).data) = get_index b :=
    get_index_kvPut_record b _ _ hu
  unfold store_workitem add_to_index
  rw [hidx1]
  split_ifs with hmem
  · refine ⟨by rw [hidx1]; exact hnd, ?_⟩
    intro uid huid
    rw [hidx1]
    by_cases he : uid = w.workitem_uid
    · subst he
      rw [kvGet_kvPut_same]
      simp [hmem]
    · rw [kvGet_kvPut_other b (wkKey w.workitem_uid) (wkKey uid) _
        (fun hk => he (wkKey_inj _ _ hk).symm)]
      exact hiff uid huid
  · have hidx2 := get_index_kvPut_index
      (kvPut b (wkKey w.workitem_uid) (to_json w).data)
      (get_index b ++ [w.workitem_uid])
    refine ⟨?_, ?_⟩
    · rw [hidx2]
      simp [List.nodup_append, hnd, hmem]
    · intro uid huid
      rw [hidx2]
      have hkne2 : indexKey ≠ wkKey uid :=
        fun hk => huid ((wkKey_eq_indexKey _).mp hk.symm)
      rw [kvGet_kvPut_other _ _ _ _ hkne2]
      by_cases he : uid = w.workitem_uid
      · subst he
        rw [kvGet_kvPut_same]
        simp
      · rw [kvGet_kvPut_other b (wkKey w.workitem_uid) (wkKey uid) _
          (fun hk => he (wkKey_inj _ _ hk).symm)]
        simp only [List.mem_append, List.mem_singleton, he, or_false]
        exact hiff uid huid

theorem storageInv_delete (b : KVBucket) (uid₀ : String)
    (hu : uid₀ ≠ "index") (h : StorageInv b) :
    StorageInv (delete_workitem b uid₀) := by
  obtain ⟨hnd, hiff⟩ := h
  have hidx1 : get_index (kvDelete b (wkKey uid₀)) = get_index b :=
    get_index_kvDelete_record b _ hu
  unfold delete_workitem remove_from_index
  rw [hidx1]
  split_ifs with hmem
  · have hidx2 := get_index_kvPut_index (kvDelete b (wkKey uid₀))
      ((get_index b).erase uid₀)
    refine ⟨by rw [hidx2]; exact hnd.erase _, ?_⟩
    intro uid huid
    rw [hidx2]
    have hkne2 : indexKey ≠ wkKey uid :=
      fun hk => huid ((wkKey_eq_indexKey _).mp hk.symm)
    rw [kvGet_kvPut_other _ _ _ _ hkne2]
    by_cases he : uid = uid₀
    · subst he
      rw [kvGet_kvDelete_same]
      simp [hnd.mem_erase_iff]
    · rw [kvGet_kvDelete_other b (wkKey uid₀) (wkKey uid)
        (fun hk => he (wkKey_inj _ _ hk).symm)]
      rw [hnd.mem_erase_iff]
      simp only [he, ne_eq, not_false_iff, true_and]
      exact hiff uid huid
  · refine ⟨by rw [hidx1]; exact hnd, ?_⟩
    intro uid huid
    rw [hidx1]
    by_cases he : uid = uid₀
    · subst he
      rw [kvGet_kvDelete_same]
      simp [hmem]
    · rw [kvGet_kvDelete_other b (wkKey uid₀) (wkKey uid)
        (fun hk => he (wkKey_inj _ _ hk).symm)]
      exact hiff uid huid

theorem foldl_storageInv :
    ∀ (ops : List StoreOp) (b : KVBucket),
    (∀ op ∈ ops, opUid op ≠ "index") → StorageInv b →
    StorageInv (ops.foldl applyOp b)
  | [], _, _, hb => hb
  | op :: rest, b, h, hb => by
      have hrest : ∀ o ∈ rest, opUid o ≠ "index" :=
        fun o ho => h o (List.mem_cons_of_mem _ ho)
      have hop := h op (List.mem_cons_self _ _)
      show StorageInv (rest.foldl applyOp (applyOp b op))
      apply foldl_storageInv rest _ hrest
      cases op with
      | store w => exact storageInv_store b w hop hb
      | delete uid => exact storageInv_delete b uid hop hb

/-- C10: after every sequence of sequentially executed `store_workitem` /
`delete_workitem` operations on an initially empty store (with real UIDs,
i.e. none equal to the reserved name `"index"` whose record key collides
with the index key), the UID index is duplicate-free, and a UID appears in
the index exactly when a record is stored under that UID's key. -/
theorem storage_index_consistent (ops : List StoreOp)
    (h : ∀ op ∈ ops, opUid op ≠ "index") :
    (get_index (runOps ops)).Nodup
    ∧ ∀ uid : String, uid ≠ "index" →
        (uid ∈ get_index (runOps ops) ↔ (kvGet (runOps ops) (wkKey uid)).isSome) :=
  foldl_storageInv ops [] h storageInv_empty

/-- Witness for `storage_index_consistent` on a concrete two-operation
history. -/
theorem storage_index_consistent_witness :
    ((get_index (runOps [StoreOp.store wDemo, StoreOp.delete "9.9.9"])).Nodup
      ∧ ("2.25.101" ∈ get_index (runOps [StoreOp.store wDemo, StoreOp.delete "9.9.9"])
        ↔ (kvGet (runOps [StoreOp.store wDemo, StoreOp.delete "9.9.9"])
            (wkKey "2.25.101")).isSome)) :=
  ⟨(storage_index_consistent [StoreOp.store wDemo, StoreOp.delete "9.9.9"]
      (by
        intro op hop
        simp only [List.mem_cons, List.mem_singleton, List.not_mem_nil, or_false] at hop
        rcases hop with rfl | rfl <;> decide)).1,
   (storage_index_consistent [StoreOp.store wDemo, StoreOp.delete "9.9.9"]
      (by
        intro op hop
        simp only [List.mem_cons, List.mem_singleton, List.not_mem_nil, or_false] at hop
        rcases hop with rfl | rfl <;> decide)).2
     "2.25.101" (by decide)⟩

/-- The key of one subscription: `KEY_PREFIX` + workitem UID + `:` +
subscriber URL (orthanc-router/ups/subscription_storage.py). -/
def subKey (workitem_uid subscriber_url : String) : List Char :=
  "subscription:".data ++ workitem_uid.data ++ ':' :: subscriber_url.data

/-- The `startswith` probe of `get_subscribers` for one workitem UID. -/
def subKeyStart (workitem_uid : String) : List Char :=
  "subscription:".data ++ workitem_uid.data ++ [':']

/-- The key of the global subscriber list, `GLOBAL_KEY`. -/
def globalKey : List Char :=
  "global_subscriptions".data

/-- The stored subscription document. -/
def subJson (workitem_uid subscriber_url : String) (deletion_lock : Bool) : Json :=
  Json.obj
    [("workitem_uid", Json.str workitem_uid),
     ("subscriber_url", Json.str subscriber_url),
     ("deletion_lock", Json.bool deletion_lock)]

/-- `UPSSubscriptionStorage.add_subscription`: serialize and overwrite the
entry for the pair's key. -/
def add_subscription (b : KVBucket) (workitem_uid subscriber_url : String)
    (deletion_lock : Bool) : KVBucket :=
  kvPut b (subKey workitem_uid subscriber_url)
    (dumps (subJson workitem_uid subscriber_url deletion_lock))

/-- `UPSSubscriptionStorage.remove_subscription`: delete the pair's key;
a missing key deletes nothing, and the `try/except` absorbs any error. -/
def remove_subscription (b : KVBucket) (workitem_uid subscriber_url : String) : KVBucket :=
  kvDelete b (subKey workitem_uid subscriber_url)

/-- The iterator loop of `get_subscribers`: walk the bucket entries and
collect `data['subscriber_url']` of every entry whose key starts with the
workitem prefix.  A decode failure or a missing/non-string URL raises
inside the surrounding `try`, which ends the collection and keeps what was
already appended (the sole writer `add_subscription` always stores a
string there, so on reachable states nothing is skipped). -/
def collect_per_workitem (workitem_uid : String) : KVBucket → List String → List String
  | [], acc => acc
  | e :: rest, acc =>
      if (subKeyStart workitem_uid).isPrefixOf e.1 then
        if e.2.isEmpty then collect_per_workitem workitem_uid rest acc
        else
          match loads e.2 with
          | some j =>
              (match jGet j "subscriber_url" with
               | some (Json.str u) => collect_per_workitem workitem_uid rest (acc ++ [u])
               | _ => acc)
          | none => acc
      else collect_per_workitem workitem_uid rest acc

/-- The global part of `get_subscribers`: decode the global list and
extend; any failure is swallowed by `except: pass` (the sole writer
`add_global_subscription` always stores an array of strings). -/
def global_subs (b : KVBucket) : List String :=
  match kvGet b globalKey with
  | some v =>
      if v.isEmpty then []
      else
        (match loads v with
         | some (Json.arr xs) =>
             xs.filterMap (fun x => match x with | Json.str u => some u | _ => none)
         | _ => [])
  | none => []

/-- `UPSSubscriptionStorage.get_subscribers`: per-workitem entries, then
the global list, then `list(set(...))`.  The Python set fixes no order;
the embedding keeps first occurrences, and the theorems below speak only
of membership and duplicate-freedom. -/
def get_subscribers (b : KVBucket) (workitem_uid : String) : List String :=
  (collect_per_workitem workitem_uid b [] ++ global_subs b).dedup

/-- `UPSSubscriptionStorage.add_global_subscription`: append the URL to
the global list when absent. -/
def add_global_subscription (b : KVBucket) (subscriber_url : String) : KVBucket :=
  let global_list := global_subs b
  if subscriber_url ∈ global_list then b
  else kvPut b globalKey (dumps (Json.arr ((global_list ++ [subscriber_url]).map Json.str)))

theorem keys_of_kvPut (b : KVBucket) (k v : List Char) :
    ∀ k' ∈ (kvPut b k v).map Prod.fst, k' ∈ b.map Prod.fst ∨ k' = k := by
  induction b with
  | nil => simp [kvPut]
  | cons e rest ih =>
      by_cases h : e.1 = k
      · intro k' hk'
        simp only [kvPut, if_pos h, List.map_cons, List.mem_cons] at hk' ⊢
        rcases hk' with rfl | hk'
        · right; rfl
        · left; right; exact hk'
      · intro k' hk'
        simp only [kvPut, if_neg h, List.map_cons, List.mem_cons] at hk' ⊢
        rcases hk' with rfl | hk'
        · left; left; rfl
        · rcases ih k' hk' with hin | rfl
          · left; right; exact hin
          · right; rfl

theorem kvPut_keys_nodup (b : KVBucket) (k v : List Char)
    (hnd : (b.map Prod.fst).Nodup) : ((kvPut b k v).map Prod.fst).Nodup := by
  induction b with
  | nil => simp [kvPut]
  | cons e rest ih =>
      rw [List.map_cons, List.nodup_cons] at hnd
      by_cases h : e.1 = k
      · simp only [kvPut, if_pos h, List.map_cons, List.nodup_cons]
        exact ⟨h ▸ hnd.1, hnd.2⟩
      · simp only [kvPut, if_neg h, List.map_cons, List.nodup_cons]
        refine ⟨?_, ih hnd.2⟩
        intro hin
        rcases keys_of_kvPut rest k v e.1 hin with hin' | rfl
        · exact hnd.1 hin'
        · exact h rfl

theorem count_kvPut (b : KVBucket) (k v : List Char)
    (hnd : (b.map Prod.fst).Nodup) :
    ((kvPut b k v).filter (fun e => decide (e.1 = k))).length = 1 := by
  induction b with
  | nil => simp [kvPut]
  | cons e rest ih =>
      rw [List.map_cons, List.nodup_cons] at hnd
      by_cases h : e.1 = k
      · simp only [kvPut, if_pos h, List.filter_cons, decide_eq_true_eq, if_true]
        have hrest : rest.filter (fun e => decide (e.1 = k)) = [] := by
          rw [List.filter_eq_nil_iff]
          intro e' he'
          simp only [decide_eq_true_eq]
          intro hk
          apply hnd.1
          rw [h, ← hk]
          exact List.mem_map_of_mem Prod.fst he'
        simp [hrest]
      · simp only [kvPut, if_neg h, List.filter_cons, decide_eq_true_eq, if_neg h]
        exact ih hnd.2

/-- C7: adding the same (workitem UID, subscriber URL) subscription twice
leaves exactly one entry under that pair's key (the second write
overwrites the first), and removing a subscription that does not exist
changes nothing and raises no error. -/
theorem subscription_add_twice_remove_missing (b : KVBucket) (uid url : String)
    (dl : Bool) (hnd : (b.map Prod.fst).Nodup)
    (habs : ∀ e ∈ b, e.1 ≠ subKey uid url) :
    ((add_subscription (add_subscription b uid url dl) uid url dl).filter
        (fun e => decide (e.1 = subKey uid url))).length = 1
    ∧ remove_subscription b uid url = b := by
  constructor
  · exact count_kvPut _ _ _ (kvPut_keys_nodup b _ _ hnd)
  · unfold remove_subscription kvDelete
    rw [List.filter_eq_self]
    intro e he
    simp [habs e he]

/-- Witness for `subscription_add_twice_remove_missing` on the empty
bucket. -/
theorem subscription_add_twice_remove_missing_witness :
    ((add_subscription (add_subscription ([] : KVBucket) "1.2.3" "http://viewer" true)
        "1.2.3" "http://viewer" true).filter
      (fun e => decide (e.1 = subKey "1.2.3" "http://viewer"))).length = 1
    ∧ remove_subscription ([] : KVBucket) "1.2.3" "http://viewer" = [] :=
  subscription_add_twice_remove_missing [] "1.2.3" "http://viewer" true
    (by decide) (by intro e he; cases he)

theorem isPrefixOf_append_same :
    ∀ (P a b : List Char), ((P ++ a).isPrefixOf (P ++ b)) = a.isPrefixOf b
  | [], _, _ => rfl
  | p :: P', a, b => by
      simp only [List.cons_append, List.isPrefixOf, beq_self_eq_true, Bool.true_and]
      exact isPrefixOf_append_same P' a b

theorem colon_append_isPrefixOf :
    ∀ (a b : List Char), ':' ∉ a → ':' ∉ b → ∀ t : List Char,
    (((a ++ [':']).isPrefixOf (b ++ ':' :: t)) = true ↔ a = b)
  | [], [], _, _, t => by simp [List.isPrefixOf]
  | [], c :: b', _, h2, t => by
      have hc : ¬(':' = c) := fun h => h2 (h ▸ List.mem_cons_self _ _)
      simp [List.isPrefixOf, hc]
  | c :: a', [], h1, _, t => by
      have hc : ¬(c = ':') := fun h => h1 (h ▸ List.mem_cons_self _ _)
      simp [List.isPrefixOf, hc]
  | c :: a', c' :: b', h1, h2, t => by
      have ih := colon_append_isPrefixOf a' b'
        (fun h => h1 (List.mem_cons_of_mem _ h))
        (fun h => h2 (List.mem_cons_of_mem _ h)) t
      simp [List.isPrefixOf, Bool.and_eq_true, ih]

theorem colon_split_inj :
    ∀ (a b x y : List Char), ':' ∉ a → ':' ∉ b →
    a ++ ':' :: x = b ++ ':' :: y → a = b ∧ x = y
  | [], [], x, y, _, _, h => by simpa using h
  | [], c :: b', x, y, _, h2, h => by
      rw [List.nil_append, List.cons_append] at h
      injection h with h0 _
      exact absurd h0.symm (fun hc => h2 (hc ▸ List.mem_cons_self _ _))
  | c :: a', [], x, y, h1, _, h => by
      rw [List.nil_append, List.cons_append] at h
      injection h with h0 _
      exact absurd h0 (fun hc => h1 (hc ▸ List.mem_cons_self _ _))
  | c :: a', c' :: b', x, y, h1, h2, h => by
      rw [List.cons_append, List.cons_append] at h
      injection h with h0 htail
      obtain ⟨hab, hxy⟩ := colon_split_inj a' b' x y
        (fun hm => h1 (List.mem_cons_of_mem _ hm))
        (fun hm => h2 (List.mem_cons_of_mem _ hm)) htail
      exact ⟨by rw [h0, hab], hxy⟩

theorem subKeyStart_not_global (uid : String) :
    (subKeyStart uid).isPrefixOf globalKey = false := rfl

theorem subKey_ne_global (uid u : String) : subKey uid u ≠ globalKey := by
  intro h
  have h1 : ('s' :: ("ubscription:".data ++ (uid.data ++ ':' :: u.data)) : List Char)
      = 'g' :: "lobal_subscriptions".data := h
  injection h1 with h0 _
  exact absurd h0 (by decide)

theorem subKeyStart_isPrefixOf_subKey (u1 u2 url : String)
    (h1 : ':' ∉ u1.data) (h2 : ':' ∉ u2.data) :
    ((subKeyStart u1).isPrefixOf (subKey u2 url) = true) ↔ u1 = u2 := by
  unfold subKeyStart subKey
  rw [List.append_assoc, List.append_assoc, isPrefixOf_append_same,
    colon_append_isPrefixOf u1.data u2.data h1 h2]
  constructor
  · intro h
    have : String.mk u1.data = String.mk u2.data := by rw [h]
    rwa [String_mk_data, String_mk_data] at this
  · intro h
    rw [h]

theorem subKey_inj_url (uid u url : String) (h : subKey uid u = subKey uid url) :
    u = url := by
  unfold subKey at h
  rw [List.append_assoc, List.append_assoc] at h
  have h2 := List.append_cancel_left (List.append_cancel_left h)
  injection h2 with _ h3
  have : String.mk u.data = String.mk url.data := by rw [h3]
  rwa [String_mk_data, String_mk_data] at this

theorem subKey_uid_eq (u1 u2 a b : String) (h1 : ':' ∉ u1.data) (h2 : ':' ∉ u2.data)
    (h : subKey u1 a = subKey u2 b) : u1 = u2 := by
  unfold subKey at h
  rw [List.append_assoc, List.append_assoc] at h
  have h3 := List.append_cancel_left h
  obtain ⟨h4, _⟩ := colon_split_inj u1.data u2.data a.data b.data h1 h2 h3
  have : String.mk u1.data = String.mk u2.data := by rw [h4]
  rwa [String_mk_data, String_mk_data] at this

/-- A subscription bucket in the shape the code itself writes: every
non-global entry was produced by `add_subscription` for some pair with a
real (colon-free, as DICOM UIDs are) workitem UID. -/
def WFSubBucket (b : KVBucket) : Prop :=
  ∀ e ∈ b, e.1 ≠ globalKey →
    ∃ uid url dl, ':' ∉ uid.data ∧ e.1 = subKey uid url
      ∧ e.2 = dumps (subJson uid url dl)

theorem subJson_value_not_empty (uid url : String) (dl : Bool) :
    (dumps (subJson uid url dl)).isEmpty = false := rfl

theorem subJson_value_ne_nil (uid url : String) (dl : Bool) :
    dumps (subJson uid url dl) ≠ [] := by
  intro h
  have h2 := congrArg List.isEmpty h
  rw [subJson_value_not_empty] at h2
  exact Bool.noConfusion h2

theorem subJson_subscriber_url (uid url : String) (dl : Bool) :
    jGet (subJson uid url dl) "subscriber_url" = some (Json.str url) := rfl

theorem mem_collect (uid : String) (hq : ':' ∉ uid.data) :
    ∀ (b : KVBucket), WFSubBucket b → ∀ (acc : List String) (u : String),
    (u ∈ collect_per_workitem uid b acc ↔
      u ∈ acc ∨ ∃ dl, (subKey uid u, dumps (subJson uid u dl)) ∈ b)
  | [], _, acc, u => by simp [collect_per_workitem]
  | e :: rest, hwf, acc, u => by
      obtain ⟨e1, e2⟩ := e
      have hwfrest : WFSubBucket rest :=
        fun x hx hg => hwf x (List.mem_cons_of_mem _ hx) hg
      by_cases hg : e1 = globalKey
      · have hpf : (subKeyStart uid).isPrefixOf e1 = false := by
          rw [hg]; exact subKeyStart_not_global uid
        have hstep : collect_per_workitem uid ((e1, e2) :: rest) acc
            = collect_per_workitem uid rest acc := by
          simp [collect_per_workitem, hpf]
        rw [hstep, mem_collect uid hq rest hwfrest acc u]
        constructor
        · rintro (h | h)
          · exact Or.inl h
          · exact Or.inr (h.imp (fun dl hdl => List.mem_cons_of_mem _ hdl))
        · rintro (h | ⟨dl, hdl⟩)
          · exact Or.inl h
          · rcases List.mem_cons.mp hdl with hEq | hmem
            · have h1 := congrArg Prod.fst hEq
              rw [hg] at h1
              exact absurd h1 (subKey_ne_global uid u)
            · exact Or.inr ⟨dl, hmem⟩
      · obtain ⟨u2, url2, dl2, hu2, hkey, hval⟩ :=
          hwf (e1, e2) (List.mem_cons_self _ _) hg
        replace hkey : e1 = subKey u2 url2 := hkey
        replace hval : e2 = dumps (subJson u2 url2 dl2) := hval
        by_cases huu : uid = u2
        · subst huu
          have hpf : (subKeyStart uid).isPrefixOf e1 = true := by
            rw [hkey]
            exact (subKeyStart_isPrefixOf_subKey uid uid url2 hq hu2).mpr rfl
          have hstep : collect_per_workitem uid ((e1, e2) :: rest) acc
              = collect_per_workitem uid rest (acc ++ [url2]) := by
            simp [collect_per_workitem, hpf, hval, subJson_value_ne_nil,
              loads_dumps, subJson_subscriber_url]
          rw [hstep, mem_collect uid hq rest hwfrest (acc ++ [url2]) u]
          have hbwd : u = url2 → (subKey uid u, dumps (subJson uid u dl2)) = (e1, e2) := by
            intro h
            subst h
            rw [hkey, hval]
          have hfwd : ∀ dl, (subKey uid u, dumps (subJson uid u dl)) = (e1, e2) →
              u = url2 := by
            intro dl hEq
            have h1 := congrArg Prod.fst hEq
            rw [hkey] at h1
            exact subKey_inj_url uid u url2 h1
          constructor
          · rintro (h | h)
            · rcases List.mem_append.mp h with h' | h'
              · exact Or.inl h'
              · exact Or.inr ⟨dl2,
                  List.mem_cons.mpr (Or.inl (hbwd (List.mem_singleton.mp h')))⟩
            · exact Or.inr (h.imp (fun dl hdl => List.mem_cons_of_mem _ hdl))
          · rintro (h | ⟨dl, hdl⟩)
            · exact Or.inl (List.mem_append.mpr (Or.inl h))
            · rcases List.mem_cons.mp hdl with hEq | hmem
              · exact Or.inl (List.mem_append.mpr
                  (Or.inr (List.mem_singleton.mpr (hfwd dl hEq))))
              · exact Or.inr ⟨dl, hmem⟩
        · have hpf : (subKeyStart uid).isPrefixOf e1 = false := by
            rw [hkey]
            exact Bool.eq_false_iff.mpr
              (fun h => huu ((subKeyStart_isPrefixOf_subKey uid u2 url2 hq hu2).mp h))
          have hstep : collect_per_workitem uid ((e1, e2) :: rest) acc
              = collect_per_workitem uid rest acc := by
            simp [collect_per_workitem, hpf]
          rw [hstep, mem_collect uid hq rest hwfrest acc u]
          constructor
          · rintro (h | h)
            · exact Or.inl h
            · exact Or.inr (h.imp (fun dl hdl => List.mem_cons_of_mem _ hdl))
          · rintro (h | ⟨dl, hdl⟩)
            · exact Or.inl h
            · rcases List.mem_cons.mp hdl with hEq | hmem
              · have h1 := congrArg Prod.fst hEq
                rw [hkey] at h1
                exact absurd (subKey_uid_eq uid u2 u url2 hq hu2 h1) huu
              · exact Or.inr ⟨dl, hmem⟩

/-- C6: on any bucket in the shape the registry itself writes, and for any
real workitem UID, `get_subscribers` returns a duplicate-free list whose
members are exactly the union of the subscriber URLs registered for that
UID and the global subscriber list; with no data at all it returns the
empty list rather than an error. -/
theorem get_subscribers_spec (b : KVBucket) (uid : String)
    (hwf : WFSubBucket b) (huid : ':' ∉ uid.data) :
    (get_subscribers b uid).Nodup
    ∧ (∀ u, u ∈ get_subscribers b uid ↔
        (∃ dl, (subKey uid u, dumps (subJson uid u dl)) ∈ b) ∨ u ∈ global_subs b)
    ∧ get_subscribers [] uid = [] := by
  refine ⟨List.nodup_dedup _, ?_, rfl⟩
  intro u
  unfold get_subscribers
  rw [List.mem_dedup, List.mem_append, mem_collect uid huid b hwf [] u]
  simp

/-- A concrete reachable subscription bucket: two subscriptions for
workitem 1.2.3 and one global subscriber. -/
def bDemo : KVBucket :=
  [(subKey "1.2.3" "http://a", dumps (subJson "1.2.3" "http://a" false)),
   (subKey "1.2.3" "http://b", dumps (subJson "1.2.3" "http://b" true)),
   (globalKey, dumps (Json.arr (["http://c"].map Json.str)))]

theorem bDemo_wf : WFSubBucket bDemo := by
  intro e he hg
  simp only [bDemo, List.mem_cons, List.not_mem_nil, or_false] at he
  rcases he with rfl | rfl | rfl
  · exact ⟨"1.2.3", "http://a", false, by decide, rfl, rfl⟩
  · exact ⟨"1.2.3", "http://b", true, by decide, rfl, rfl⟩
  · exact absurd rfl hg

/-- Witness for `get_subscribers_spec` on `bDemo`. -/
theorem get_subscribers_spec_witness :
    (get_subscribers bDemo "1.2.3").Nodup
    ∧ ("http://b" ∈ get_subscribers bDemo "1.2.3" ↔
        (∃ dl, (subKey "1.2.3" "http://b", dumps (subJson "1.2.3" "http://b" dl)) ∈ bDemo)
        ∨ "http://b" ∈ global_subs bDemo)
    ∧ get_subscribers [] "1.2.3" = [] :=
  ⟨(get_subscribers_spec bDemo "1.2.3" bDemo_wf (by decide)).1,
   (get_subscribers_spec bDemo "1.2.3" bDemo_wf (by decide)).2.1 "http://b",
   (get_subscribers_spec bDemo "1.2.3" bDemo_wf (by decide)).2.2⟩

/-- The outcome of the `requests.post` of one notification delivery:
either a raised exception or a response status. -/
inductive DeliveryOutcome where
  | exc (msg : String)
  | status (code : Nat)

/-- The body of `notify_subscriber` before its `try/except`: the post
either raises or yields a status that is only logged. -/
def notify_subscriber_body (env : String → DeliveryOutcome) (url : String) :
    Except String String :=
  match env url with
  | .exc m => .error m
  | .status code =>
      if code = 200 then .ok ("Notified subscriber " ++ url)
      else .ok ("Notification failed for " ++ url)

/-- `notify_subscriber` (orthanc-router/ups/processor.py): the whole body
runs inside `try/except Exception`, so a raised delivery error becomes a
log line and nothing propagates to the caller. -/
def notify_subscriber (env : String → DeliveryOutcome) (url : String) : String :=
  match notify_subscriber_body env url with
  | .ok line => line
  | .error m => "Error notifying " ++ url ++ ": " ++ m

/-- `notify_all_subscribers`: resolve the subscribers from the registry;
with none, log and return; otherwise deliver to each in order, collecting
the (url, log line) outcome of every attempt. -/
def notify_all_subscribers (env : String → DeliveryOutcome) (b : KVBucket)
    (workitem_uid : String) : List (String × String) :=
  let subscribers := get_subscribers b workitem_uid
  if subscribers.isEmpty then []
  else subscribers.map (fun url => (url, notify_subscriber env url))

/-- C8: with a subscriber whose delivery raises and another whose delivery
can succeed, the fan-out still attempts every registered subscriber in
order — the failed delivery is absorbed into a log line inside
`notify_subscriber`, it neither raises out of `notify_all_subscribers`
nor stops the loop, and the reachable subscriber receives its delivery. -/
theorem notification_fanout_independent (env : String → DeliveryOutcome)
    (b : KVBucket) (uid A B : String) (m : String)
    (hA : A ∈ get_subscribers b uid) (hB : B ∈ get_subscribers b uid)
    (hfailA : env A = .exc m) (hokB : env B = .status 200) :
    (B, "Notified subscriber " ++ B) ∈ notify_all_subscribers env b uid
    ∧ (A, "Error notifying " ++ A ++ ": " ++ m) ∈ notify_all_subscribers env b uid
    ∧ (notify_all_subscribers env b uid).map Prod.fst = get_subscribers b uid := by
  have hne : (get_subscribers b uid).isEmpty = false := by
    cases h : get_subscribers b uid with
    | nil => rw [h] at hB; cases hB
    | cons x xs => rfl
  unfold notify_all_subscribers
  simp only [hne, Bool.false_eq_true, if_false]
  refine ⟨?_, ?_, ?_⟩
  · simp only [Bool.false_eq_true, if_false, List.mem_map]
    exact ⟨B, hB, by simp [notify_subscriber, notify_subscriber_body, hokB]⟩
  · simp only [Bool.false_eq_true, if_false, List.mem_map]
    exact ⟨A, hA, by simp [notify_subscriber, notify_subscriber_body, hfailA]⟩
  · simp only [List.map_map]
    have hid : (Prod.fst ∘ fun url : String => (url, notify_subscriber env url)) = id := rfl
    rw [hid, List.map_id]

/-- Witness for `notification_fanout_independent` on `bDemo`, where
delivery to `http://a` times out and delivery to `http://b` succeeds. -/
theorem notification_fanout_independent_witness :
    ("http://b", "Notified subscriber " ++ "http://b")
      ∈ notify_all_subscribers
        (fun url => if url = "http://a" then .exc "timeout" else .status 200)
        bDemo "1.2.3"
    ∧ ("http://a", "Error notifying " ++ "http://a" ++ ": " ++ "timeout")
      ∈ notify_all_subscribers
        (fun url => if url = "http://a" then .exc "timeout" else .status 200)
        bDemo "1.2.3"
    ∧ (notify_all_subscribers
        (fun url => if url = "http://a" then .exc "timeout" else .status 200)
        bDemo "1.2.3").map Prod.fst = get_subscribers bDemo "1.2.3" :=
  notification_fanout_independent
    (fun url => if url = "http://a" then .exc "timeout" else .status 200)
    bDemo "1.2.3" "http://a" "http://b" "timeout"
    (by decide) (by decide) rfl rfl
